import Mathlib

/-!
# kart-challenge: order composition, error translation and the authorization chain

A shallow embedding of the Go packages `apperr`, `products`, `coupons`, `orders`
and `server` of `matgreaves/kart-challenge`, followed by theorems about them.

Conventions of the embedding

* A Go `error` value that is not `nil` is a `GoError`; a possibly-`nil` error is an
  `Option GoError` (`none` is `nil`).
* A Go function returning `(T, error)` returns a pair `T × Option GoError`.
* A run-time panic (a method call on a `nil` interface value) is `none` in the
  outer `Option` of a result.
* Stateful collaborators thread their state explicitly.
* Logging and `fmt.Println` write to the process log, not to the response; the
  log lines of the server package are kept in `Conn.logs`.
-/

set_option autoImplicit false

namespace Kart

/-! ## Go errors -/

/-- The shapes of non-nil Go `error` values that occur in the repository.

* `plain msg`: `errors.New(msg)` or `fmt.Errorf` without `%w` (no `Unwrap`);
* `wrap msg err`: `fmt.Errorf` with one `%w`, whose `Error()` is `msg` and whose
  `Unwrap()` is `err`;
* `join errs`: `errors.Join(errs...)`, whose `Unwrap()` is the slice `errs`;
* `app code cause`: an `apperr.Error` value with `Code = code`, `Cause = cause`
  (`Unwrap()` returns `Cause`; the cause is taken to be non-nil, as everywhere in
  the repository);
* `server code message`: a `server.ServerError` value (no `Unwrap`). -/
inductive GoError where
  | plain (msg : String)
  | wrap (msg : String) (err : GoError)
  | join (errs : List GoError)
  | app (code : String) (cause : GoError)
  | server (code : String) (message : String)

namespace GoError

mutual
/-- The `Error()` method of each error shape. `joinError.Error` joins with a
newline; `apperr.Error.Error` is `Code + ": " + Cause.Error()`;
`ServerError.Error` is `Sprintf("%s: %s", Code, Message)`. -/
def Error : GoError → String
  | plain msg => msg
  | wrap msg _ => msg
  | join errs => "\n".intercalate (ErrorList errs)
  | app code cause => code ++ ": " ++ cause.Error
  | server code message => code ++ ": " ++ message
/-- The messages of a slice of errors, in order. -/
def ErrorList : List GoError → List String
  | [] => []
  | e :: es => e.Error :: ErrorList es
end

end GoError

/-- Go's `errors.Join` on a slice of non-nil errors: `nil` when the slice is
empty, otherwise the join error holding the slice. -/
def errorsJoin (errs : List GoError) : Option GoError :=
  if errs.isEmpty then none else some (GoError.join errs)

/-! ## package apperr -/

namespace apperr

def CodeValidation : String := "validation"
def CodeNotFound : String := "missing"
def CodeConstraint : String := "constraint"

/-- The struct `apperr.Error` (the unexported, never assigned `source` field is
left out). -/
structure Error where
  Code : String
  Cause : GoError

/-- An `apperr.Error` used as an `error` value. -/
def Error.toGoError (ae : Error) : GoError := GoError.app ae.Code ae.Cause

def NewError (code : String) (cause : GoError) : Error :=
  { Code := code, Cause := cause }

end apperr

namespace GoError

mutual
/-- The call `errors.As(err, &ae)` with `ae` of type `apperr.Error`: the first
`apperr.Error` met walking the error tree depth-first (the error itself, then
what `Unwrap` returns), or `none` when `errors.As` returns false. -/
def asAppErr : GoError → Option apperr.Error
  | plain _ => none
  | wrap _ err => err.asAppErr
  | join errs => asAppErrList errs
  | app code cause => some { Code := code, Cause := cause }
  | server _ _ => none
/-- The loop of `errors.As` over the slice of a join error. -/
def asAppErrList : List GoError → Option apperr.Error
  | [] => none
  | e :: es =>
    match e.asAppErr with
    | some ae => some ae
    | none => asAppErrList es
end

end GoError

/-! ## package server: errors -/

namespace server

def ErrCodeValidation : String := "validation"
def ErrCodeInternal : String := "internal"
def ErrCodeNotFound : String := "not found"
def ErrCodeConstraint : String := "constraint"
def ErrCodeBadRequest : String := "bad request"

/-- The struct `server.ServerError`. -/
structure ServerError where
  Code : String
  Message : String
deriving DecidableEq, Repr

/-- A `ServerError` used as an `error` value. -/
def ServerError.toGoError (se : ServerError) : GoError := GoError.server se.Code se.Message

def ErrInternal : ServerError :=
  { Code := ErrCodeInternal, Message := "internal server error" }

def StatusBadRequest : Nat := 400
def StatusUnauthorized : Nat := 401
def StatusForbidden : Nat := 403
def StatusNotFound : Nat := 404
def StatusUnprocessableEntity : Nat := 422
def StatusInternalServerError : Nat := 500
def StatusOK : Nat := 200

def ServerError.StatusCode (s : ServerError) : Nat :=
  if s.Code = ErrCodeValidation then StatusBadRequest
  else if s.Code = ErrCodeNotFound then StatusNotFound
  else if s.Code = ErrCodeConstraint then StatusUnprocessableEntity
  else StatusInternalServerError

def appErrToServer (err : GoError) : ServerError :=
  match err.asAppErr with
  | some se =>
    if se.Code = apperr.CodeValidation then
      { ErrInternal with Code := ErrCodeValidation, Message := se.Cause.Error }
    else if se.Code = apperr.CodeConstraint then
      { ErrInternal with Code := ErrCodeConstraint, Message := se.Cause.Error }
    else if se.Code = apperr.CodeNotFound then
      { ErrInternal with Code := ErrCodeNotFound, Message := se.Cause.Error }
    else ErrInternal
  | none => ErrInternal

end server

namespace GoError

mutual
/-- The call `errors.As(err, &se)` with `se` of type `server.ServerError`. -/
def asServerError : GoError → Option server.ServerError
  | plain _ => none
  | wrap _ err => err.asServerError
  | join errs => asServerErrorList errs
  | app _ cause => cause.asServerError
  | server code message => some { Code := code, Message := message }
/-- The loop of `errors.As` over the slice of a join error. -/
def asServerErrorList : List GoError → Option server.ServerError
  | [] => none
  | e :: es =>
    match e.asServerError with
    | some se => some se
    | none => asServerErrorList es
end

end GoError

/-! ## package products -/

namespace products

/-- The struct `products.Product`. `Price` is a `float32` in the source; it is
only stored and copied, so it is kept as its 32-bit pattern. -/
structure Product where
  Category : String := ""
  ID : String := ""
  Name : String := ""
  Price : Nat := 0
deriving DecidableEq, Repr

/-- The interface `products.Store`, as far as order composition uses it: `Get`
returns the Go pair `(Product, error)`. -/
structure Store where
  Get : String → Product × Option GoError

/-- The type `products.Slice`. -/
abbrev Slice := List Product

/-- `Slice.Get`: the first product whose `ID` is `id`, else a NotFound error. -/
def Slice.Get : Slice → String → Product × Option GoError
  | [], id =>
    ({}, some (apperr.NewError apperr.CodeNotFound
      (GoError.plain ("product " ++ id ++ " not found"))).toGoError)
  | v :: rest, id => if v.ID = id then (v, none) else Slice.Get rest id

/-- A `Slice` used as a `products.Store`. -/
def Slice.toStore (s : Slice) : Store := { Get := Slice.Get s }

end products

/-! ## package coupons -/

namespace coupons

/-- The interface `coupons.Store`. -/
structure Store where
  Has : String → Bool

/-- The type `coupons.Mem`, a `map[string]struct{}`, as the list of its keys. -/
abbrev Mem := List String

def Mem.Has (m : Mem) (code : String) : Bool := m.contains code

/-- A `Mem` used as a `coupons.Store`. -/
def Mem.toStore (m : Mem) : Store := { Has := Mem.Has m }

end coupons

/-! ## package orders -/

namespace orders

structure OrderItem where
  ProductID : String := ""
  Quantity : Int := 0
deriving DecidableEq, Repr

structure Order where
  ID : String := ""
  Items : List OrderItem := []
  Products : List products.Product := []
deriving DecidableEq, Repr

structure OrderReq where
  CouponCode : String := ""
  Items : List OrderItem := []
deriving DecidableEq, Repr

/-- The interface `orders.Store`, over the state `σ` of the implementation:
`Create` returns the Go pair `(Order, error)` and the next state. -/
structure Store (σ : Type) where
  Create : Order → σ → (Order × Option GoError) × σ

/-- The `for i, v := range o.Items` loop of `Validate`: `ve` is the slice of
errors so far, `i` the index of the head of the remaining items. -/
def OrderReq.validateLoop : List GoError → Nat → List OrderItem → List GoError
  | ve, _, [] => ve
  | ve, i, v :: rest =>
    let ve := if v.ProductID = "" then
      ve ++ [GoError.plain ("item[" ++ toString i ++ "] productId is required")] else ve
    let ve := if v.Quantity < 0 then
      ve ++ [GoError.plain ("item[" ++ toString i ++ "] quantity cannot be less than zero")]
      else ve
    OrderReq.validateLoop ve (i + 1) rest

/-- `OrderReq.Validate`: `none` is the `nil` error. -/
def OrderReq.Validate (o : OrderReq) : Option GoError :=
  let ve : List GoError := []
  let ve := if o.Items.length = 0 then
    ve ++ [GoError.plain "at least one item is required"] else ve
  let ve := OrderReq.validateLoop ve 0 o.Items
  if ve.length > 0 then errorsJoin ve else none

/-- The loop of `productsForItems`: `p` is the slice of products so far. A `nil`
product store panics at the first `Get`. -/
def productsLoop (ps : Option products.Store) :
    List products.Product → List OrderItem → Option (List products.Product × Option GoError)
  | p, [] => some (p, none)
  | p, v :: rest =>
    match ps with
    | none => none
    | some st =>
      match st.Get v.ProductID with
      | (_, some err) =>
        if (match err.asAppErr with
            | some ae => decide (ae.Code = apperr.CodeNotFound)
            | none => false) then
          some ([], some (apperr.NewError apperr.CodeConstraint
            (GoError.plain "invalid product specified")).toGoError)
        else
          some ([], some (GoError.wrap ("failed to fill products: " ++ err.Error) err))
      | (prod, none) => productsLoop ps (p ++ [prod]) rest

def productsForItems (items : List OrderItem) (ps : Option products.Store) :
    Option (List products.Product × Option GoError) :=
  productsLoop ps [] items

/-- The condition `req.CouponCode != "" && !cs.Has(req.CouponCode)` of `Create`,
evaluated left to right: `cs` is consulted only for a non-empty code, and a
`nil` coupon store panics there (`none`). -/
def couponRejected (code : String) (cs : Option coupons.Store) : Option Bool :=
  if code ≠ "" then
    match cs with
    | none => none
    | some c => some (!c.Has code)
  else some false

/-- `orders.Create`. The result is the Go pair `(Order, error)`, or `none` when
the call panics on a `nil` store, together with the state of the order store
afterwards. -/
def Create {σ : Type} (req : OrderReq) (os : Option (Store σ)) (s : σ)
    (ps : Option products.Store) (cs : Option coupons.Store) :
    Option (Order × Option GoError) × σ :=
  match req.Validate with
  | some err => (some ({}, some (apperr.NewError apperr.CodeConstraint err).toGoError), s)
  | none =>
    match couponRejected req.CouponCode cs with
    | none => (none, s)
    | some true =>
      (some ({}, some (apperr.NewError apperr.CodeConstraint
        (GoError.plain "invalid couponCode specified")).toGoError), s)
    | some false =>
      let order : Order := { Items := req.Items }
      match productsForItems order.Items ps with
      | none => (none, s)
      | some (_, some err) => (some ({}, some err), s)
      | some (prods, none) =>
        let order := { order with Products := prods }
        match os with
        | none => (none, s)
        | some st => (some (st.Create order s).1, (st.Create order s).2)

/-- A value of `uuid.UUID` (package `github.com/google/uuid`): its 16 bytes. -/
structure UUID where
  bytes : List Nat
deriving DecidableEq, Repr

/-- Two lower-case hexadecimal digits per byte, as `hex.Encode` writes them. -/
def hexEncode (bs : List Nat) : List Char :=
  bs.flatMap fun b => [Nat.digitChar (b / 16 % 16), Nat.digitChar (b % 16)]

/-- `UUID.String()`: the canonical form `xxxxxxxx-xxxx-xxxx-xxxx-xxxxxxxxxxxx`,
the hexadecimal digits of bytes 0-3, 4-5, 6-7, 8-9 and 10-15 separated by `-`. -/
def UUID.String (u : UUID) : String :=
  String.mk (hexEncode (u.bytes.take 4) ++ '-' :: hexEncode ((u.bytes.drop 4).take 2) ++
    '-' :: hexEncode ((u.bytes.drop 6).take 2) ++ '-' :: hexEncode ((u.bytes.drop 8).take 2) ++
    '-' :: hexEncode ((u.bytes.drop 10).take 6))

/-- The state behind an `orders.Mem`: the map `data` as a list of its entries,
and how many values have been drawn from the random source of `uuid.NewRandom`. -/
structure MemState where
  data : List (String × Order) := []
  drawn : Nat := 0
deriving DecidableEq, Repr

/-- The map assignment `m[k] = v`. -/
def mapSet (m : List (String × Order)) (k : String) (v : Order) : List (String × Order) :=
  (k, v) :: m.filter (fun kv => kv.1 ≠ k)

/-- `Mem.Create`. `rand n` is what the `n`-th call of `uuid.NewRandom()` returns,
the Go pair `(UUID, error)`. -/
def Mem.Create (rand : Nat → UUID × Option GoError) (o : Order) (m : MemState) :
    (Order × Option GoError) × MemState :=
  match rand m.drawn with
  | (_, some err) =>
    (({}, some (GoError.wrap ("orders failed to create uuid: " ++ err.Error) err)),
      { m with drawn := m.drawn + 1 })
  | (id, none) =>
    let o := { o with ID := id.String }
    ((o, none), { data := mapSet m.data o.ID o, drawn := m.drawn + 1 })

/-- `NewMem()`: the store whose state starts as the empty map. -/
def NewMem (rand : Nat → UUID × Option GoError) : Store MemState :=
  { Create := Mem.Create rand }

end orders

/-! ## package server: responses, handlers, middleware -/

namespace server

/-- What `json.NewEncoder(w).Encode(v)` is called on in the handlers; one value
is one JSON document written to the response body. -/
inductive Payload where
  | error (se : ServerError)
  | order (o : orders.Order)
  | product (p : products.Product)
  | products (ps : List products.Product)
deriving DecidableEq, Repr

/-- The observable state of an `http.ResponseWriter`: the status written (if
any so far) and the documents written to the body, in order. -/
structure ResponseWriter where
  status : Option Nat := none
  body : List Payload := []
deriving DecidableEq, Repr

/-- `w.WriteHeader(code)`: sets the status unless one was already written. -/
def ResponseWriter.WriteHeader (w : ResponseWriter) (code : Nat) : ResponseWriter :=
  match w.status with
  | some _ => w
  | none => { w with status := some code }

/-- `json.NewEncoder(w).Encode(v)`: a write to the body, which first writes
status 200 when no status has been written. -/
def ResponseWriter.Encode (w : ResponseWriter) (v : Payload) : ResponseWriter :=
  let w := w.WriteHeader StatusOK
  { w with body := w.body ++ [v] }

/-- Instants of `time.Time`, compared by `Before` and `After`. -/
abbrev Time := Int

/-- The struct `server.Token`. `Scopes` is a map used as a set: `none` is the
`nil` map, `some ks` the map with keys `ks`. -/
structure Token where
  ValidFrom : Time := 0
  ExpiresAt : Time := 0
  Scopes : Option (List String) := none
deriving DecidableEq, Repr

/-- `Token.Validate`: `none` is the `nil` error. -/
def Token.Validate (t : Token) (tm : Time) : Option GoError :=
  if tm < t.ValidFrom then some (GoError.plain "token presented before ValidFrom")
  else if tm > t.ExpiresAt then some (GoError.plain "token presented after ExpiresAt")
  else none

/-- The type `StaticAuthProvider`, a `map[string]Token`, as its lookup. -/
abbrev StaticAuthProvider := String → Option Token

/-- What the handlers read of an `*http.Request`: the URL path, the value of the
`api_key` header when present, the raw body, and the token stored in the request
context under `tokenKey`. -/
structure Request where
  Path : String := ""
  APIKey : Option String := none
  Body : String := ""
  ctxToken : Option Token := none
deriving DecidableEq, Repr

/-- `r.Header.Get(APIKeyHeader)`: the empty string when the header is absent. -/
def Request.HeaderGetAPIKey (r : Request) : String := r.APIKey.getD ""

/-- `TokenFromContext(r.Context())`. -/
def TokenFromContext (r : Request) : Option Token := r.ctxToken

/-- `r.WithContext(token.Ctx(r.Context()))`. -/
def Request.WithToken (r : Request) (t : Token) : Request := { r with ctxToken := some t }

/-- What serving a request can change: the response writer, the lines logged
(level and message), and the state `σ` of whatever the handlers own. -/
structure Conn (σ : Type) where
  w : ResponseWriter := {}
  logs : List (String × String) := []
  state : σ

/-- An `http.Handler`: `ServeHTTP(w, r)` as a state transformer. -/
abbrev Handler (σ : Type) := Request → Conn σ → Conn σ

def Conn.Log {σ : Type} (c : Conn σ) (level msg : String) : Conn σ :=
  { c with logs := c.logs ++ [(level, msg)] }

/-- `strings.HasPrefix`. -/
def HasPrefix (s pre : String) : Bool := pre.data.isPrefixOf s.data

/-- `Server.handleErr`. -/
def handleErr {σ : Type} (c : Conn σ) (err : GoError) : Conn σ :=
  let c := c.Log "ERROR" err.Error
  let se := match err.asServerError with
    | some se => se
    | none => appErrToServer err
  { c with w := (c.w.WriteHeader se.StatusCode).Encode (Payload.error se) }

/-- `AuthenticatedHandler(p, s, next, excepts...)`, serving at time `now`. -/
def AuthenticatedHandler {σ : Type} (p : StaticAuthProvider) (next : Handler σ)
    (excepts : List String) (now : Time) : Handler σ := fun r c =>
  if excepts.any (fun except => HasPrefix r.Path except) then next r c
  else
    match p r.HeaderGetAPIKey with
    | none =>
      let c := c.Log "WARN" "request does not contain expected credentions"
      { c with w := c.w.WriteHeader StatusUnauthorized }
    | some token =>
      match token.Validate now with
      | some err =>
        let c := c.Log "WARN" ("invalid token presented: " ++ err.Error)
        { c with w := c.w.WriteHeader StatusForbidden }
      | none => next (r.WithToken token) c

end server

/-! ## package products: listing -/

namespace products

/-- Go's `int` on a 64-bit platform: the value an arithmetic result wraps to. -/
def wrapInt64 (x : Int) : Int := (x + 2 ^ 63) % 2 ^ 64 - 2 ^ 63

/-- `Slice.List`, for `page` and `pageSize` of Go type `int`. The result is the Go
pair `([]Product, error)`, or `none` when the slice expression panics: `s[lo:hi]`
needs `0 <= lo <= hi <= cap(s)`. Products and sums are taken in `int`, so they
wrap. -/
def Slice.List (s : Slice) (page pageSize : Int) : Option (List Product × Option GoError) :=
  if page < 0 then
    some ([], some (GoError.app apperr.CodeValidation
      (GoError.plain "page must be zero or greater")))
  else if pageSize < 1 then
    some ([], some (GoError.app apperr.CodeValidation
      (GoError.plain "pageSize must be greater than zero")))
  else
    let lo := min (wrapInt64 (pageSize * page)) (s.length : Int)
    let hi := min (wrapInt64 (wrapInt64 (pageSize * page) + pageSize)) (s.length : Int)
    if 0 ≤ lo ∧ lo ≤ hi then some ((s.drop lo.toNat).take (hi.toNat - lo.toNat), none)
    else none

end products

/-! ## package server: scoped routes and route handlers -/

namespace server

/-- `ScopedHandler(s, scope, next)`. -/
def ScopedHandler {σ : Type} (scope : String) (next : Handler σ) : Handler σ := fun r c =>
  match TokenFromContext r with
  | none =>
    let c := c.Log "ERROR" "scoped handler didn't find a token, router set up incorrectly"
    { c with w := c.w.WriteHeader StatusForbidden }
  | some token =>
    if (match token.Scopes with
        | some ks => ks.contains scope
        | none => false) then next r c
    else
      let c := c.Log "WARN" ("token missing required scope: " ++ scope)
      { c with w := c.w.WriteHeader StatusForbidden }

/-- The struct `server.Server`, without `Addr` and `Logger`; a store field may be
`nil`. The state `σ` of a connection is the state of the order store. -/
structure Server (σ : Type) where
  Auth : StaticAuthProvider
  Products : Option products.Store
  Orders : Option (orders.Store σ)
  Coupons : Option coupons.Store

/-- The path prefixes that `Server.Handler` exempts from authentication. -/
def Server.excepts : List String := ["/product"]

/-- The handler returned by `Server.getProduct`; `productID` is what
`r.PathValue("productID")` returns. `none` is a panic on a `nil` product store. -/
def Server.getProduct {σ : Type} (s : Server σ) (productID : String) :
    Request → Conn σ → Option (Conn σ) := fun _ c =>
  match s.Products with
  | none => none
  | some ps =>
    match ps.Get productID with
    | (_, some err) => some (handleErr c err)
    | (p, none) => some { c with w := c.w.Encode (Payload.product p) }

/-- The handler returned by `Server.createOrder`; `decode` is what
`json.NewDecoder(r.Body).Decode(&req)` does with the body: the decoded request or
the error. `none` is a panic of `orders.Create` on a `nil` store. After a failed
`orders.Create` the handler calls `handleErr` and goes on to encode `order`. -/
def Server.createOrder {σ : Type} (s : Server σ)
    (decode : String → Except GoError orders.OrderReq) :
    Request → Conn σ → Option (Conn σ) := fun r c =>
  match decode r.Body with
  | Except.error err =>
    some (handleErr c (ServerError.toGoError
      { Code := ErrCodeBadRequest, Message := "invalid request payload: " ++ err.Error }))
  | Except.ok req =>
    match orders.Create req s.Orders c.state s.Products s.Coupons with
    | (none, _) => none
    | (some (order, err), st) =>
      let c := { c with state := st }
      let c := match err with
        | some e => handleErr c e
        | none => c
      some { c with w := c.w.Encode (Payload.order order) }

end server

/-! ## tools/coupons -/

namespace tools.coupons

/-- What `run` sees of one file: the lines that `bufio.Scanner` yields and the
error `s.Err()` reports afterwards. -/
structure File where
  lines : List String
  scanErr : Option GoError := none

/-- Go's `strings.Split(s, " ")` on the characters of `s`: `cur` holds the
characters of the current piece, in reverse. -/
def splitSpaces : List Char → List Char → List String
  | cur, [] => [String.mk cur.reverse]
  | cur, ch :: rest =>
    if ch = ' ' then String.mk cur.reverse :: splitSpaces [] rest
    else splitSpaces (ch :: cur) rest

/-- The state of the scan: the map `seen` and the slice `seenTwo`. -/
structure Scan where
  seen : String → Nat
  seenTwo : List String

/-- The body of the `for s.Scan()` loop below its context check, on the line
`text`. `len(s.Text())` is the length in bytes. -/
def scanLine (st : Scan) (text : String) : Scan :=
  if text.utf8ByteSize < 8 ∨ text.utf8ByteSize > 10 then st
  else
    let seen := fun k => if k = text then st.seen k + 1 else st.seen k
    if seen text = 2 then { seen := seen, seenTwo := st.seenTwo ++ [text] }
    else { seen := seen, seenTwo := st.seenTwo }

/-- The `for s.Scan()` loop over the lines of one file. Each turn first calls
`ctx.Err()` and returns its error when there is one; `ctx k` is what the `k`-th
call of `ctx.Err()` of the run returns (`none` while the context is live), and
the number of calls made so far is threaded through. -/
def scanLines (ctx : Nat → Option GoError) :
    Nat → Scan → List String → Except GoError (Scan × Nat)
  | k, st, [] => Except.ok (st, k)
  | k, st, text :: rest =>
    match ctx k with
    | some err => Except.error err
    | none => scanLines ctx (k + 1) (scanLine st text) rest

/-- The `for _, fname := range fileNames` loop of `run`: `fs fname` is what
`os.Open(fname)` and the scan of the opened file give, the error of `os.Open` or
the file. The result is the final scan state or the error returned. After a scan
error the code wraps the variable `err` of `os.Open`, which is `nil` there, so
`Errorf` prints `%!w(<nil>)` and wraps nothing. -/
def scanFiles (fs : String → Except GoError File) (ctx : Nat → Option GoError) :
    Nat → Scan → List String → Except GoError Scan
  | _, st, [] => Except.ok st
  | k, st, fname :: rest =>
    match fs fname with
    | Except.error err =>
      Except.error (GoError.wrap ("failed to open coupon file: " ++ err.Error) err)
    | Except.ok f =>
      match scanLines ctx k st f.lines with
      | Except.error err => Except.error err
      | Except.ok (st, k) =>
        match f.scanErr with
        | some _ =>
          Except.error (GoError.plain "failed scanning coupon file: %!w(<nil>)")
        | none => scanFiles fs ctx k st rest

/-- An `io.Writer` over its state `ω`: `io.WriteString(to, s)` gives the next
state and the error of the write. -/
structure Writer (ω : Type) where
  WriteString : ω → String → ω × Option GoError

/-- The `for _, v := range seenTwo` loop of `run`: one write of `v + "\n"` per
element, stopping at the first write that fails. -/
def writeSeen {ω : Type} (dst : Writer ω) : ω → List String → ω × Option GoError
  | w, [] => (w, none)
  | w, v :: rest =>
    match dst.WriteString w (v ++ "\n") with
    | (w2, some err) => (w2, some (GoError.wrap ("failed to write seen: " ++ err.Error) err))
    | (w2, none) => writeSeen dst w2 rest

/-- The function `run` of the tool: `files` is the value of the flag `-f`, `ctx`
the outcomes of `ctx.Err()`, `dst` the writer `to` and `w` its state before the
call.
The result is the state of the writer afterwards and the error returned. -/
def run {ω : Type} (fs : String → Except GoError File) (ctx : Nat → Option GoError)
    (dst : Writer ω) (w : ω) (files : String) : ω × Option GoError :=
  let fileNames := splitSpaces [] files.data
  match scanFiles fs ctx 0 { seen := fun _ => 0, seenTwo := [] } fileNames with
  | Except.error err => (w, some err)
  | Except.ok st => writeSeen dst w st.seenTwo

end tools.coupons

/-! ## Definitions used to state the theorems -/

namespace orders

/-- An order store that also counts the calls of its `Create`. -/
def Store.counted {σ : Type} (st : Store σ) : Store (σ × Nat) :=
  { Create := fun o s => ((st.Create o s.1).1, ((st.Create o s.1).2, s.2 + 1)) }

/-- Structural validation passes, the coupon check passes (no coupon code, or a
coupon store that has the code), and the product store resolves every item. -/
def passesChecks (req : OrderReq) (ps : Option products.Store) (cs : Option coupons.Store) :
    Bool :=
  req.Validate.isNone &&
  (decide (req.CouponCode = "") || cs.any (fun c => c.Has req.CouponCode)) &&
  ps.any (fun p => req.Items.all (fun x => (p.Get x.ProductID).2.isNone))

/-- The order handed to the order store: the items of the request and, for each
item in order, the product that `Get` returns for it. -/
def composedOrder (req : OrderReq) (p : products.Store) : Order :=
  { Items := req.Items, Products := req.Items.map (fun x => (p.Get x.ProductID).1) }

/-- The request `testReq()` of the tests of package orders. -/
def testReq : OrderReq := { Items := [{ ProductID := "1", Quantity := 1 }] }

/-- A catalogue with the product of id "1". -/
def sampleSlice : products.Slice :=
  [{ ID := "1", Name := "Waffle with Berries", Category := "Waffle" },
   { ID := "2", Name := "Vanilla Bean Crème Brûlée", Category := "Crème Brûlée" }]

/-- A version 4 UUID. -/
def sampleUUID : UUID :=
  { bytes := [0, 1, 2, 3, 4, 5, 70, 7, 136, 9, 10, 11, 12, 13, 14, 15] }

/-- The order created for `testReq` against `sampleSlice` under `sampleUUID`. -/
def sampleOrder : Order :=
  { ID := "00010203-0405-4607-8809-0a0b0c0d0e0f",
    Items := [{ ProductID := "1", Quantity := 1 }],
    Products := [{ ID := "1", Name := "Waffle with Berries", Category := "Waffle" }] }

/-- The violations of the item at index `i`, as the specification lists them:
first the missing product id, then the negative quantity. -/
def itemViolations (i : Nat) (v : OrderItem) : List String :=
  (if v.ProductID = "" then ["item[" ++ toString i ++ "] productId is required"] else []) ++
  (if v.Quantity < 0 then ["item[" ++ toString i ++ "] quantity cannot be less than zero"]
   else [])

/-- All structural violations of a non-empty list of items, in index order. -/
def violations (items : List OrderItem) : List String :=
  items.enum.flatMap (fun iv => itemViolations iv.1 iv.2)

/-- The error that `Create` returns at its coupon check. -/
def couponErr : GoError :=
  (apperr.NewError apperr.CodeConstraint (GoError.plain "invalid couponCode specified")).toGoError

end orders

namespace server

/-- `TestAuth()`, built at time `now`, where `year` is what `AddDate(1, 0, 0)`
adds (the few instructions between its calls of `time.Now()` are not told
apart). -/
def TestAuth (now year : Time) : StaticAuthProvider := fun key =>
  if key = "apitest" then
    some { ExpiresAt := now + year, Scopes := some ["order:create"] }
  else if key = "noscope" then some { ExpiresAt := now + year }
  else if key = "tooearly" then some { ValidFrom := now + year, ExpiresAt := now + year }
  else if key = "toolate" then some { ValidFrom := now - year, ExpiresAt := now - year }
  else none

/-- A handler that answers 200 with a product list and counts its calls. -/
def countingHandler : Handler Nat := fun _ c =>
  { c with w := c.w.Encode (Payload.products []), state := c.state + 1 }

end server

namespace server

/-- The products of the tests of package products (prices left out). -/
def testProducts : products.Slice :=
  [{ ID := "1", Category := "Cake", Name := "Black Forest" },
   { ID := "2", Category := "Cake", Name := "Carrot" },
   { ID := "3", Category := "Cake", Name := "Red Velvet" }]

/-- A server over `testProducts`, the coupon "OVER9000" and the in-memory order
store drawing `sampleUUID`. -/
def testServer : Server orders.MemState :=
  { Auth := TestAuth 1000 365,
    Products := some (products.Slice.toStore testProducts),
    Orders := some (orders.NewMem (fun _ => (orders.sampleUUID, none))),
    Coupons := some (coupons.Mem.toStore ["OVER9000"]) }

/-- The JSON of the good order of the tests with quantity -1. -/
def negativeQuantityBody : String :=
  "\x7b\"items\":[\x7b\"productId\":\"1\",\"quantity\":-1\x7d]\x7d"

/-- A decoder that knows two bodies: the good order of the tests and the same
order with quantity -1; any other body fails to decode. -/
def testDecode (body : String) : Except GoError orders.OrderReq :=
  if body = "\x7b\"items\":[\x7b\"productId\":\"1\",\"quantity\":1\x7d]\x7d" then
    Except.ok { Items := [{ ProductID := "1", Quantity := 1 }] }
  else if body = "\x7b\"items\":[\x7b\"productId\":\"1\",\"quantity\":-1\x7d]\x7d" then
    Except.ok { Items := [{ ProductID := "1", Quantity := -1 }] }
  else Except.error (GoError.plain "EOF")

end server

namespace tools.coupons

/-- The lines of the file `fname`, none when it cannot be opened. -/
def linesOf (fs : String → Except GoError File) (fname : String) : List String :=
  match fs fname with
  | Except.ok f => f.lines
  | Except.error _ => []

/-- All lines of the listed files, in the order they are scanned. -/
def allLines (fs : String → Except GoError File) (names : List String) : List String :=
  names.flatMap (linesOf fs)

/-- A line the tool takes for a coupon: 8 to 10 bytes long. -/
def validCoupon (c : String) : Bool := decide (8 ≤ c.utf8ByteSize) && decide (c.utf8ByteSize ≤ 10)

/-- What the scan state holds after the lines `done`: `seen` counts the valid
lines, `seenTwo` lists once each the valid lines met at least twice. -/
def ScanInv (st : Scan) (done : List String) : Prop :=
  (∀ k, st.seen k = if validCoupon k then done.count k else 0) ∧
  st.seenTwo.Nodup ∧
  ∀ k, k ∈ st.seenTwo ↔ validCoupon k = true ∧ 2 ≤ done.count k

/-- Every listed file opens and scans without an error. -/
def allReadable (fs : String → Except GoError File) (names : List String) : Bool :=
  names.all fun n =>
    match fs n with
    | Except.ok f => f.scanErr.isNone
    | Except.error _ => false

/-- In how many of the listed files the line `c` occurs. -/
def filesWith (fs : String → Except GoError File) (names : List String) (c : String) : Nat :=
  (names.filter (fun n => decide (c ∈ linesOf fs n))).length

/-- A context that is never cancelled: every `ctx.Err()` is `nil`. -/
def live : Nat → Option GoError := fun _ => none

/-- A context cancelled before the `n`-th call of `ctx.Err()`. -/
def cancelledAt (n : Nat) : Nat → Option GoError := fun k =>
  if k < n then none else some (GoError.plain "context canceled")

/-- A writer that keeps every string written, in order, and does not fail. -/
def buffer : Writer (List String) := { WriteString := fun w s => (w ++ [s], none) }

/-- A writer on a closed pipe: every write fails and nothing is kept. -/
def closedPipe : Writer (List String) :=
  { WriteString := fun w _ => (w, some (GoError.plain "write: broken pipe")) }

/-- What the writer `dst` holds after the writes of the strings `ss`, in order. -/
def written {ω : Type} (dst : Writer ω) (w : ω) (ss : List String) : ω :=
  ss.foldl (fun w s => (dst.WriteString w s).1) w

/-- Two files: "a" holds the coupon HAPPYHRS twice, "b" holds FIFTYOFF. -/
def dupFiles (fname : String) : Except GoError File :=
  if fname = "a" then Except.ok { lines := ["HAPPYHRS", "HAPPYHRS"] }
  else if fname = "b" then Except.ok { lines := ["FIFTYOFF"] }
  else Except.error (GoError.plain ("open " ++ fname ++ ": no such file or directory"))

/-- Two files that both hold the five-byte line SHORT. -/
def shortFiles (fname : String) : Except GoError File :=
  if fname = "a" then Except.ok { lines := ["SHORT", "HAPPYHRS"] }
  else if fname = "b" then Except.ok { lines := ["SHORT", "FIFTYOFF"] }
  else Except.error (GoError.plain ("open " ++ fname ++ ": no such file or directory"))

/-- Three files as sets of coupons; HAPPYHRS is in the first and the third. -/
def threeFiles (fname : String) : Except GoError File :=
  if fname = "a" then Except.ok { lines := ["HAPPYHRS", "FIFTYOFF"] }
  else if fname = "b" then Except.ok { lines := ["BIRTHDAY"] }
  else if fname = "c" then Except.ok { lines := ["SUPER100", "HAPPYHRS"] }
  else Except.error (GoError.plain ("open " ++ fname ++ ": no such file or directory"))

end tools.coupons

/-! ## Theorems -/

open orders server

section helpers

theorem couponRejected_of_passed (code : String) (cs : Option coupons.Store)
    (h : code = "" ∨ ∃ c, cs = some c ∧ c.Has code = true) :
    couponRejected code cs = some false := by
  unfold couponRejected
  rcases h with h | ⟨c, hc, hhas⟩
  · simp [h]
  · subst hc
    by_cases hne : code = "" <;> simp [hne, hhas]

/-- Items that resolve only extend the slice of products and the loop goes on. -/
theorem productsLoop_resolved_append (p : products.Store) (pre rest : List OrderItem)
    (acc : List products.Product)
    (hpre : ∀ x ∈ pre, (p.Get x.ProductID).2 = none) :
    productsLoop (some p) acc (pre ++ rest) =
      productsLoop (some p) (acc ++ pre.map (fun x => (p.Get x.ProductID).1)) rest := by
  induction pre generalizing acc with
  | nil => simp
  | cons x xs ih =>
    have hx : (p.Get x.ProductID).2 = none := hpre x (List.mem_cons_self _ _)
    have hxs : ∀ y ∈ xs, (p.Get y.ProductID).2 = none :=
      fun y hy => hpre y (List.mem_cons_of_mem _ hy)
    rcases hget : p.Get x.ProductID with ⟨prod, e⟩
    rw [hget] at hx
    simp only at hx
    subst hx
    simp [productsLoop, hget, ih _ hxs]

/-- The loop at an item whose `Get` fails. -/
theorem productsLoop_failed (p : products.Store) (it : OrderItem) (post : List OrderItem)
    (acc : List products.Product) (prod : products.Product) (e : GoError)
    (hget : p.Get it.ProductID = (prod, some e)) :
    productsLoop (some p) acc (it :: post) =
      if (match e.asAppErr with
          | some ae => decide (ae.Code = apperr.CodeNotFound)
          | none => false) then
        some ([], some (GoError.app apperr.CodeConstraint
          (GoError.plain "invalid product specified")))
      else some ([], some (GoError.wrap ("failed to fill products: " ++ e.Error) e)) := by
  simp [productsLoop, hget, apperr.NewError, apperr.Error.toGoError]

theorem productsLoop_all_resolved (p : products.Store) (items : List OrderItem)
    (acc : List products.Product)
    (h : ∀ x ∈ items, (p.Get x.ProductID).2 = none) :
    productsLoop (some p) acc items =
      some (acc ++ items.map (fun x => (p.Get x.ProductID).1), none) := by
  have := productsLoop_resolved_append p items [] acc h
  simpa [productsLoop] using this

/-- `handleErr` on an error holding neither an `apperr.Error` nor a `ServerError`. -/
theorem handleErr_unrecognised {σ : Type} (c : Conn σ) (err : GoError)
    (happ : err.asAppErr = none) (hsrv : err.asServerError = none) :
    (handleErr c err).w = (c.w.WriteHeader 500).Encode (Payload.error ErrInternal) := by
  have hse : appErrToServer err = ErrInternal := by simp [appErrToServer, happ]
  simp [handleErr, hsrv, hse, Conn.Log, ServerError.StatusCode, ErrInternal, ErrCodeInternal,
    ErrCodeValidation, ErrCodeNotFound, ErrCodeConstraint, StatusInternalServerError]

theorem validate_nil_items (req : OrderReq) (h : req.Items = []) :
    req.Validate = some (GoError.join [GoError.plain "at least one item is required"]) := by
  simp [OrderReq.Validate, h, OrderReq.validateLoop, errorsJoin]

theorem items_ne_nil_of_validate (req : OrderReq) (h : req.Validate = none) :
    req.Items ≠ [] := by
  intro hnil
  rw [validate_nil_items req hnil] at h
  exact Option.noConfusion h

/-- A loop that returns products without an error had a product store that
resolved every item. -/
theorem productsLoop_ok_inv (ps : Option products.Store) (items : List OrderItem)
    (acc prods : List products.Product) (hne : items ≠ [])
    (h : productsLoop ps acc items = some (prods, none)) :
    ∃ p, ps = some p ∧ ∀ x ∈ items, (p.Get x.ProductID).2 = none := by
  induction items generalizing acc with
  | nil => exact absurd rfl hne
  | cons x xs ih =>
    cases ps with
    | none => simp [productsLoop] at h
    | some p =>
      refine ⟨p, rfl, ?_⟩
      rcases hget : p.Get x.ProductID with ⟨prod, e⟩
      cases e with
      | some err =>
        simp only [productsLoop, hget] at h
        split at h <;> simp at h
      | none =>
        simp only [productsLoop, hget] at h
        intro y hy
        rcases List.mem_cons.1 hy with rfl | hy
        · simp [hget]
        · by_cases hxs : xs = []
          · subst hxs
            simp at hy
          · obtain ⟨q, hq, hall⟩ := ih _ hxs h
            cases hq
            exact hall y hy

theorem couponRejected_false_inv (code : String) (cs : Option coupons.Store)
    (h : couponRejected code cs = some false) :
    (decide (code = "") || cs.any (fun c => c.Has code)) = true := by
  unfold couponRejected at h
  by_cases hc : code = ""
  · simp [hc]
  · cases cs with
    | none => simp [hc] at h
    | some c => simpa [hc] using h

/-- When the checks do not all pass, `Create` leaves the order store alone and
does not return an order without an error. -/
theorem Create_not_passed {σ : Type} (req : OrderReq) (os : Option (Store σ)) (s : σ)
    (ps : Option products.Store) (cs : Option coupons.Store)
    (h : passesChecks req ps cs = false) :
    (Create req os s ps cs).2 = s ∧ ∀ o, (Create req os s ps cs).1 ≠ some (o, none) := by
  unfold Create
  cases hval : req.Validate with
  | some err => simp
  | none =>
    cases hcr : couponRejected req.CouponCode cs with
    | none => simp
    | some b =>
      cases b with
      | true => simp
      | false =>
        cases hpl : productsForItems req.Items ps with
        | none => simp [hpl]
        | some r =>
          rcases r with ⟨prods, e⟩
          cases e with
          | some err => simp [hpl]
          | none =>
            exfalso
            obtain ⟨p, hp, hall⟩ := productsLoop_ok_inv ps req.Items [] prods
              (items_ne_nil_of_validate req hval) hpl
            have hc := couponRejected_false_inv _ _ hcr
            subst hp
            have : passesChecks req (some p) cs = true := by
              simp only [passesChecks, hval, Option.isNone_none, hc, Bool.and_self,
                Option.any_some, Bool.true_and, List.all_eq_true, Option.isNone_iff_eq_none]
              exact hall
            rw [this] at h
            exact Bool.noConfusion h

/-- When all checks pass, `Create` is one call of the order store on the
composed order (or a panic on a `nil` order store). -/
theorem Create_passed {σ : Type} (req : OrderReq) (os : Option (Store σ)) (s : σ)
    (ps : Option products.Store) (cs : Option coupons.Store)
    (h : passesChecks req ps cs = true) :
    ∃ p, ps = some p ∧ (∀ x ∈ req.Items, (p.Get x.ProductID).2 = none) ∧
      Create req os s ps cs =
        match os with
        | none => (none, s)
        | some st => (some (st.Create (composedOrder req p) s).1,
            (st.Create (composedOrder req p) s).2) := by
  simp only [passesChecks, Bool.and_eq_true, Option.isNone_iff_eq_none, Bool.or_eq_true,
    decide_eq_true_eq] at h
  obtain ⟨⟨hval, hcoupon⟩, hps⟩ := h
  cases ps with
  | none => simp at hps
  | some p =>
    simp only [Option.any_some, List.all_eq_true, Option.isNone_iff_eq_none] at hps
    refine ⟨p, rfl, hps, ?_⟩
    have hcr : couponRejected req.CouponCode cs = some false := by
      apply couponRejected_of_passed
      rcases hcoupon with h1 | h2
      · exact Or.inl h1
      · cases cs with
        | none => simp at h2
        | some c => exact Or.inr ⟨c, rfl, by simpa using h2⟩
    have hloop := productsLoop_all_resolved p req.Items [] hps
    cases os with
    | none => simp [Create, hval, hcr, productsForItems, hloop]
    | some st => simp [Create, hval, hcr, productsForItems, hloop, composedOrder]

theorem uuid_string_ne_empty (u : UUID) : u.String ≠ "" := by
  intro h
  have hd := congrArg String.data h
  simp [UUID.String] at hd

theorem ErrorList_map_plain (l : List String) :
    GoError.ErrorList (l.map GoError.plain) = l := by
  induction l with
  | nil => rfl
  | cons x xs ih => simp [GoError.ErrorList, GoError.Error, ih]

theorem validateLoop_eq (ve : List GoError) (i : Nat) (items : List OrderItem) :
    OrderReq.validateLoop ve i items =
      ve ++ ((items.enumFrom i).flatMap (fun iv => itemViolations iv.1 iv.2)).map
        GoError.plain := by
  induction items generalizing ve i with
  | nil => simp [OrderReq.validateLoop]
  | cons v rest ih =>
    simp only [OrderReq.validateLoop, ih, List.enumFrom_cons, List.flatMap_cons, itemViolations,
      List.map_append]
    by_cases h1 : v.ProductID = "" <;> by_cases h2 : v.Quantity < 0 <;> simp [h1, h2]

theorem validate_of_items (req : OrderReq) (h : req.Items ≠ []) :
    req.Validate =
      if violations req.Items = [] then none
      else some (GoError.join ((violations req.Items).map GoError.plain)) := by
  have hlen : req.Items.length ≠ 0 := by simpa using h
  simp only [OrderReq.Validate, hlen, if_false, validateLoop_eq, List.nil_append, violations,
    List.enum, errorsJoin]
  generalize (req.Items.enumFrom 0).flatMap (fun iv => itemViolations iv.1 iv.2) = l
  cases l with
  | nil => simp
  | cons x xs => simp

/-- An error returned by the product loop is the reclassified one or a wrap. -/
theorem productsLoop_err_shape (ps : Option products.Store) (items : List OrderItem)
    (acc prods : List products.Product) (err : GoError)
    (h : productsLoop ps acc items = some (prods, some err)) :
    err = GoError.app apperr.CodeConstraint (GoError.plain "invalid product specified") ∨
    ∃ m e, err = GoError.wrap m e := by
  induction items generalizing acc with
  | nil => simp [productsLoop] at h
  | cons x xs ih =>
    cases ps with
    | none => simp [productsLoop] at h
    | some p =>
      rcases hget : p.Get x.ProductID with ⟨prod, e⟩
      cases e with
      | some e0 =>
        simp only [productsLoop, hget, apperr.NewError, apperr.Error.toGoError] at h
        split at h
        · simp only [Option.some.injEq, Prod.mk.injEq] at h
          exact Or.inl h.2.symm
        · simp only [Option.some.injEq, Prod.mk.injEq] at h
          exact Or.inr ⟨_, _, h.2.symm⟩
      | none =>
        simp only [productsLoop, hget] at h
        exact ih _ h

/-- The in-memory order store returns no error, or a wrap of the error of
`uuid.NewRandom`. -/
theorem memCreate_err_shape (rand : Nat → UUID × Option GoError) (ord o : Order)
    (m : MemState) (err : GoError) (h : (Mem.Create rand ord m).1 = (o, some err)) :
    ∃ msg e, err = GoError.wrap msg e := by
  unfold Mem.Create at h
  rcases hr : rand m.drawn with ⟨id, e⟩
  rw [hr] at h
  cases e with
  | some e0 =>
    simp only [Prod.mk.injEq, Option.some.injEq] at h
    exact ⟨_, _, h.2.symm⟩
  | none => simp at h

end helpers

/-- C1. When the request passes validation and the coupon check, the items before
`it` resolve, and the product store's `Get` for `it` fails with an error that
`errors.As` recognises as an `apperr.Error` of code NotFound, `orders.Create`
returns the zero order with the `apperr.Error` of code Constraint whose cause is
"invalid product specified"; the order store is untouched, and the code of the
returned error is not NotFound. -/
theorem C1_unknown_product_reclassified {σ : Type} (req : OrderReq) (os : Option (Store σ))
    (s : σ) (p : products.Store) (cs : Option coupons.Store)
    (pre post : List OrderItem) (it : OrderItem) (prod : products.Product)
    (e : GoError) (ae : apperr.Error)
    (hval : req.Validate = none)
    (hcoupon : req.CouponCode = "" ∨ ∃ c, cs = some c ∧ c.Has req.CouponCode = true)
    (hitems : req.Items = pre ++ it :: post)
    (hpre : ∀ x ∈ pre, (p.Get x.ProductID).2 = none)
    (hget : p.Get it.ProductID = (prod, some e))
    (has : e.asAppErr = some ae) (hcode : ae.Code = apperr.CodeNotFound) :
    ∃ err cause,
      Create req os s (some p) cs = (some ({}, some err), s) ∧
      err = (apperr.NewError apperr.CodeConstraint cause).toGoError ∧
      cause.Error = "invalid product specified" ∧
      err.asAppErr = some { Code := apperr.CodeConstraint, Cause := cause } ∧
      apperr.CodeConstraint ≠ apperr.CodeNotFound := by
  refine ⟨_, GoError.plain "invalid product specified", ?_, rfl, rfl, rfl, by decide⟩
  have hloop : productsForItems req.Items (some p) =
      some ([], some (GoError.app apperr.CodeConstraint
        (GoError.plain "invalid product specified"))) := by
    unfold productsForItems
    rw [hitems, productsLoop_resolved_append p pre (it :: post) [] hpre,
      productsLoop_failed p it post _ prod e hget]
    simp [has, hcode]
  simp [Create, hval, couponRejected_of_passed _ _ hcoupon, hloop, apperr.NewError,
    apperr.Error.toGoError]

/-- Witness of C1: the request of the test "product doesn't exist", item "9999"
against a slice holding only product "1", with no order store and no coupon
store. -/
theorem C1_unknown_product_reclassified_witness :
    ∃ err cause,
      Create (σ := Unit) { Items := [{ ProductID := "9999", Quantity := 1 }] } none ()
        (some (products.Slice.toStore [{ ID := "1", Name := "Waffle" }])) none
        = (some ({}, some err), ()) ∧
      err = (apperr.NewError apperr.CodeConstraint cause).toGoError ∧
      cause.Error = "invalid product specified" ∧
      err.asAppErr = some { Code := apperr.CodeConstraint, Cause := cause } ∧
      apperr.CodeConstraint ≠ apperr.CodeNotFound :=
  C1_unknown_product_reclassified { Items := [{ ProductID := "9999", Quantity := 1 }] } none ()
    (products.Slice.toStore [{ ID := "1", Name := "Waffle" }]) none
    [] [] { ProductID := "9999", Quantity := 1 } {}
    (GoError.app apperr.CodeNotFound (GoError.plain "product 9999 not found"))
    { Code := apperr.CodeNotFound, Cause := GoError.plain "product 9999 not found" }
    rfl (Or.inl rfl) rfl (by simp) rfl rfl rfl

/-- Counterexample to C2 as stated: the NotFound error of a missing product is
translated to status 404 with the code string "not found", which is not
"missing". -/
theorem C2_notFound_code_is_not_missing :
    appErrToServer (apperr.NewError apperr.CodeNotFound
        (GoError.plain "product 9999 not found")).toGoError
      = { Code := "not found", Message := "product 9999 not found" } ∧
    (appErrToServer (apperr.NewError apperr.CodeNotFound
        (GoError.plain "product 9999 not found")).toGoError).StatusCode = 404 ∧
    (appErrToServer (apperr.NewError apperr.CodeNotFound
        (GoError.plain "product 9999 not found")).toGoError).Code ≠ "missing" := by
  decide

/-- C2 (amended). For every cause, `appErrToServer` followed by `StatusCode` maps
an `apperr.Error` of code Validation to status 400 and code "validation", of code
Constraint to status 422 and code "constraint", and of code NotFound to status
404 and code "not found"; the message is the `Error()` text of the cause. -/
theorem C2_translation_by_category (cause : GoError) :
    (appErrToServer (apperr.NewError apperr.CodeValidation cause).toGoError
        = { Code := "validation", Message := cause.Error } ∧
      (appErrToServer (apperr.NewError apperr.CodeValidation cause).toGoError).StatusCode
        = 400) ∧
    (appErrToServer (apperr.NewError apperr.CodeConstraint cause).toGoError
        = { Code := "constraint", Message := cause.Error } ∧
      (appErrToServer (apperr.NewError apperr.CodeConstraint cause).toGoError).StatusCode
        = 422) ∧
    (appErrToServer (apperr.NewError apperr.CodeNotFound cause).toGoError
        = { Code := "not found", Message := cause.Error } ∧
      (appErrToServer (apperr.NewError apperr.CodeNotFound cause).toGoError).StatusCode
        = 404) := by
  refine ⟨⟨?_, ?_⟩, ⟨?_, ?_⟩, ⟨?_, ?_⟩⟩ <;>
    simp [appErrToServer, apperr.NewError, apperr.Error.toGoError, GoError.asAppErr,
      apperr.CodeValidation, apperr.CodeConstraint, apperr.CodeNotFound, ErrInternal,
      ErrCodeValidation, ErrCodeConstraint, ErrCodeNotFound, ServerError.StatusCode,
      StatusBadRequest, StatusUnprocessableEntity, StatusNotFound]

/-- Counterexample to C3 as stated: the `ServerError` that `createOrder` hands to
`handleErr` for an undecodable body neither is nor wraps an `apperr.Error`, yet
the payload written carries code "bad request" and the decoder's text. -/
theorem C3_serverError_passes_through :
    (GoError.server ErrCodeBadRequest "invalid request payload: EOF").asAppErr = none ∧
    (handleErr ({ state := () } : Conn Unit)
        (GoError.server ErrCodeBadRequest "invalid request payload: EOF")).w
      = { status := some 500,
          body := [Payload.error { Code := "bad request",
                                   Message := "invalid request payload: EOF" }] } ∧
    (handleErr ({ state := () } : Conn Unit)
        (GoError.server ErrCodeBadRequest "invalid request payload: EOF")).w
      ≠ { status := some 500, body := [Payload.error ErrInternal] } :=
  ⟨rfl, by decide, by decide⟩

/-- C3 (amended). For every error in which `errors.As` finds neither an
`apperr.Error` nor a `ServerError`, `handleErr` writes status 500 and then the one
payload `ErrInternal` (code "internal", message "internal server error"): on a
fresh response writer the response is exactly that, the same for all such errors,
and the handlers' state is untouched. The text of the error goes to the log. -/
theorem C3_unrecognised_error_is_internal {σ : Type} (c : Conn σ) (err : GoError)
    (happ : err.asAppErr = none) (hsrv : err.asServerError = none) :
    (handleErr c err).w = (c.w.WriteHeader 500).Encode (Payload.error ErrInternal) ∧
    (c.w = {} → (handleErr c err).w =
      { status := some 500,
        body := [Payload.error { Code := "internal", Message := "internal server error" }] }) ∧
    (handleErr c err).state = c.state ∧
    (handleErr c err).logs = c.logs ++ [("ERROR", err.Error)] := by
  have hw : (handleErr c err).w = (c.w.WriteHeader 500).Encode (Payload.error ErrInternal) :=
    handleErr_unrecognised c err happ hsrv
  refine ⟨hw, ?_, ?_, ?_⟩
  · intro hfresh
    rw [hw, hfresh]
    decide
  · simp [handleErr, Conn.Log]
  · simp [handleErr, Conn.Log]

/-- Witness of C3 (amended): a wrapped store outage. -/
theorem C3_unrecognised_error_is_internal_witness :
    (handleErr ({ state := () } : Conn Unit)
        (GoError.wrap "failed to fill products: db down" (GoError.plain "db down"))).w
      = (({} : ResponseWriter).WriteHeader 500).Encode (Payload.error ErrInternal) ∧
    ((({} : ResponseWriter) = {}) →
      (handleErr ({ state := () } : Conn Unit)
        (GoError.wrap "failed to fill products: db down" (GoError.plain "db down"))).w =
      { status := some 500,
        body := [Payload.error { Code := "internal", Message := "internal server error" }] }) ∧
    (handleErr ({ state := () } : Conn Unit)
        (GoError.wrap "failed to fill products: db down" (GoError.plain "db down"))).state = () ∧
    (handleErr ({ state := () } : Conn Unit)
        (GoError.wrap "failed to fill products: db down" (GoError.plain "db down"))).logs
      = [] ++ [("ERROR", "failed to fill products: db down")] :=
  C3_unrecognised_error_is_internal { state := () }
    (GoError.wrap "failed to fill products: db down" (GoError.plain "db down")) rfl rfl

/-- Counterexample to C4 as stated: a product store whose `Get` fails with an
`apperr.Error` of code Validation (not NotFound). `orders.Create` wraps it, and
the response translation of the wrapped error is status 400 with code
"validation" and the store's own cause message, not the internal category. -/
theorem C4_other_category_reaches_caller :
    Create (σ := Unit) { Items := [{ ProductID := "1", Quantity := 1 }] } none ()
        (some { Get := fun _ => ({}, some (GoError.app apperr.CodeValidation
          (GoError.plain "product id must be numeric"))) }) none
      = (some ({}, some (GoError.wrap
          "failed to fill products: validation: product id must be numeric"
          (GoError.app apperr.CodeValidation (GoError.plain "product id must be numeric")))),
        ()) ∧
    (handleErr ({ state := () } : Conn Unit) (GoError.wrap
          "failed to fill products: validation: product id must be numeric"
          (GoError.app apperr.CodeValidation (GoError.plain "product id must be numeric")))).w
      = { status := some 400,
          body := [Payload.error { Code := "validation",
                                   Message := "product id must be numeric" }] } :=
  ⟨rfl, by decide⟩

/-- C4 (amended). When the request passes validation and the coupon check, the
items before `it` resolve, and `Get` for `it` fails with an error `e` in which
`errors.As` finds no `apperr.Error` of code NotFound, `orders.Create` fails with
`e` wrapped unchanged under the message "failed to fill products: " followed by
the message of `e`; the order store is not called (its state is the same, and a
`nil` order store does not panic); `errors.As` finds in the wrapped error exactly
what it finds in `e`. When `e` holds neither an `apperr.Error` nor a
`ServerError`, `handleErr` answers the wrapped error with status 500 and the
payload `ErrInternal`, which has nothing of `e`. -/
theorem C4_other_store_failure_wrapped {σ τ : Type} (req : OrderReq) (os : Option (Store σ))
    (s : σ) (p : products.Store) (cs : Option coupons.Store)
    (pre post : List OrderItem) (it : OrderItem) (prod : products.Product)
    (e : GoError) (c : Conn τ)
    (hval : req.Validate = none)
    (hcoupon : req.CouponCode = "" ∨ ∃ c, cs = some c ∧ c.Has req.CouponCode = true)
    (hitems : req.Items = pre ++ it :: post)
    (hpre : ∀ x ∈ pre, (p.Get x.ProductID).2 = none)
    (hget : p.Get it.ProductID = (prod, some e))
    (hnot : ∀ ae, e.asAppErr = some ae → ae.Code ≠ apperr.CodeNotFound) :
    Create req os s (some p) cs
      = (some ({}, some (GoError.wrap ("failed to fill products: " ++ e.Error) e)), s) ∧
    (GoError.wrap ("failed to fill products: " ++ e.Error) e).asAppErr = e.asAppErr ∧
    (GoError.wrap ("failed to fill products: " ++ e.Error) e).asServerError
      = e.asServerError ∧
    (e.asAppErr = none → e.asServerError = none →
      (handleErr c (GoError.wrap ("failed to fill products: " ++ e.Error) e)).w
        = (c.w.WriteHeader 500).Encode
            (Payload.error { Code := "internal", Message := "internal server error" })) := by
  have hcond : (match e.asAppErr with
      | some ae => decide (ae.Code = apperr.CodeNotFound)
      | none => false) = false := by
    cases h : e.asAppErr with
    | none => rfl
    | some ae => simpa using hnot ae h
  have hloop : productsForItems req.Items (some p) =
      some ([], some (GoError.wrap ("failed to fill products: " ++ e.Error) e)) := by
    unfold productsForItems
    rw [hitems, productsLoop_resolved_append p pre (it :: post) [] hpre,
      productsLoop_failed p it post _ prod e hget, hcond]
    simp
  refine ⟨?_, rfl, rfl, ?_⟩
  · simp [Create, hval, couponRejected_of_passed _ _ hcoupon, hloop]
  · intro happ hsrv
    exact (handleErr_unrecognised c _ (by simpa [GoError.asAppErr] using happ)
      (by simpa [GoError.asServerError] using hsrv))

/-- Witness of C4 (amended): a product store that is down. -/
theorem C4_other_store_failure_wrapped_witness :
    Create (σ := Unit) { Items := [{ ProductID := "1", Quantity := 1 }] } none ()
        (some { Get := fun _ => ({}, some (GoError.plain "connection refused")) }) none
      = (some ({}, some (GoError.wrap
          ("failed to fill products: " ++ (GoError.plain "connection refused").Error)
          (GoError.plain "connection refused"))), ()) ∧
    (GoError.wrap ("failed to fill products: " ++ (GoError.plain "connection refused").Error)
        (GoError.plain "connection refused")).asAppErr
      = (GoError.plain "connection refused").asAppErr ∧
    (GoError.wrap ("failed to fill products: " ++ (GoError.plain "connection refused").Error)
        (GoError.plain "connection refused")).asServerError
      = (GoError.plain "connection refused").asServerError ∧
    ((GoError.plain "connection refused").asAppErr = none →
      (GoError.plain "connection refused").asServerError = none →
      (handleErr ({ state := () } : Conn Unit) (GoError.wrap
          ("failed to fill products: " ++ (GoError.plain "connection refused").Error)
          (GoError.plain "connection refused"))).w
        = (({} : ResponseWriter).WriteHeader 500).Encode
            (Payload.error { Code := "internal", Message := "internal server error" })) :=
  C4_other_store_failure_wrapped { Items := [{ ProductID := "1", Quantity := 1 }] } none ()
    { Get := fun _ => ({}, some (GoError.plain "connection refused")) } none
    [] [] { ProductID := "1", Quantity := 1 } {} (GoError.plain "connection refused")
    { state := () } rfl (Or.inl rfl) rfl (by simp) rfl (by simp [GoError.asAppErr])

/-- C5. Run against an order store that counts its calls, `orders.Create` makes
at most one call. It makes exactly one, on the order composed of all items and
their resolved products, when validation, the coupon check and the resolution of
every item have passed; otherwise it makes none, and for every order store
(also a `nil` one) the state of the store is unchanged. -/
theorem C5_single_persistence_call {σ : Type} (req : OrderReq) (st : Store σ) (s : σ) (n : Nat)
    (ps : Option products.Store) (cs : Option coupons.Store) :
    (Create req (some st.counted) (s, n) ps cs).2.2 ≤ n + 1 ∧
    (passesChecks req ps cs = true →
      ∃ p, ps = some p ∧
        Create req (some st.counted) (s, n) ps cs =
          (some (st.Create (composedOrder req p) s).1,
            ((st.Create (composedOrder req p) s).2, n + 1))) ∧
    (passesChecks req ps cs = false →
      (Create req (some st.counted) (s, n) ps cs).2 = (s, n) ∧
      ∀ os : Option (Store σ), (Create req os s ps cs).2 = s) := by
  have hpass : passesChecks req ps cs = true →
      ∃ p, ps = some p ∧
        Create req (some st.counted) (s, n) ps cs =
          (some (st.Create (composedOrder req p) s).1,
            ((st.Create (composedOrder req p) s).2, n + 1)) := by
    intro h
    obtain ⟨p, hp, _, hc⟩ := Create_passed req (some st.counted) (s, n) ps cs h
    exact ⟨p, hp, by simpa [Store.counted] using hc⟩
  have hfail : passesChecks req ps cs = false →
      (Create req (some st.counted) (s, n) ps cs).2 = (s, n) ∧
      ∀ os : Option (Store σ), (Create req os s ps cs).2 = s :=
    fun h => ⟨(Create_not_passed req _ (s, n) ps cs h).1,
      fun os => (Create_not_passed req os s ps cs h).1⟩
  refine ⟨?_, hpass, hfail⟩
  cases h : passesChecks req ps cs with
  | true =>
    obtain ⟨p, _, hc⟩ := hpass h
    rw [hc]
  | false =>
    rw [(hfail h).1]
    exact Nat.le_succ n

/-- C6. When `orders.Create` with the in-memory order store returns an order and
no error, the order has a non-empty id, its items are the items of the request,
it has as many products as items, and for each position `i` the product store's
`Get` of the `i`-th item's product id returns the `i`-th product and no error. -/
theorem C6_created_order_aligned (rand : Nat → UUID × Option GoError) (req : OrderReq)
    (m m2 : MemState) (ps : Option products.Store) (cs : Option coupons.Store) (o : Order)
    (h : Create req (some (NewMem rand)) m ps cs = (some (o, none), m2)) :
    o.ID ≠ "" ∧ o.Items = req.Items ∧ o.Products.length = o.Items.length ∧
    ∃ p, ps = some p ∧
      ∀ i (hi : i < o.Items.length) (hp : i < o.Products.length),
        p.Get (o.Items.get ⟨i, hi⟩).ProductID = (o.Products.get ⟨i, hp⟩, none) := by
  cases hpc : passesChecks req ps cs with
  | false =>
    have := (Create_not_passed req (some (NewMem rand)) m ps cs hpc).2 o
    rw [h] at this
    exact absurd rfl this
  | true =>
    obtain ⟨p, hp, hall, hc⟩ := Create_passed req (some (NewMem rand)) m ps cs hpc
    rw [h] at hc
    simp only [NewMem, Mem.Create, Prod.mk.injEq, Option.some.injEq] at hc
    rcases hr : rand m.drawn with ⟨id, e⟩
    rw [hr] at hc
    cases e with
    | some err => simp at hc
    | none =>
      simp only [Prod.mk.injEq, and_true] at hc
      obtain ⟨ho, -⟩ := hc
      subst ho
      refine ⟨uuid_string_ne_empty id, rfl, by simp [composedOrder], p, hp, ?_⟩
      intro i hi hpi
      have hmem : (composedOrder req p).Items.get ⟨i, hi⟩ ∈ req.Items :=
        List.get_mem _ _ _
      have h2 := hall _ hmem
      simp only [composedOrder, List.get_eq_getElem, List.getElem_map] at h2 ⊢
      exact Prod.ext rfl h2

/-- Witness of C6: the request of the test "success", one item of product "1",
with coupon "OVER9000" in the coupon store. -/
theorem C6_created_order_aligned_witness :
    sampleOrder.ID ≠ "" ∧ sampleOrder.Items = { testReq with CouponCode := "OVER9000" }.Items ∧
    sampleOrder.Products.length = sampleOrder.Items.length ∧
    ∃ p, some (products.Slice.toStore sampleSlice) = some p ∧
      ∀ i (hi : i < sampleOrder.Items.length) (hp : i < sampleOrder.Products.length),
        p.Get (sampleOrder.Items.get ⟨i, hi⟩).ProductID
          = (sampleOrder.Products.get ⟨i, hp⟩, none) :=
  C6_created_order_aligned (fun _ => (sampleUUID, none))
    { testReq with CouponCode := "OVER9000" }
    {} { data := [(sampleOrder.ID, sampleOrder)], drawn := 1 }
    (some (products.Slice.toStore sampleSlice)) (some (coupons.Mem.toStore ["OVER9000"]))
    sampleOrder rfl

/-- C7. For every request with no items, whatever its coupon code and whatever
stores are passed (also `nil` ones), `orders.Create` returns the zero order with
an `apperr.Error` of code Constraint whose cause has the message
"at least one item is required", and leaves the order store alone. -/
theorem C7_no_items_is_constraint {σ : Type} (req : OrderReq) (os : Option (Store σ)) (s : σ)
    (ps : Option products.Store) (cs : Option coupons.Store) (h : req.Items = []) :
    ∃ cause,
      Create req os s ps cs
        = (some ({}, some (apperr.NewError apperr.CodeConstraint cause).toGoError), s) ∧
      cause.Error = "at least one item is required" := by
  refine ⟨GoError.join [GoError.plain "at least one item is required"], ?_, by decide⟩
  simp [Create, validate_nil_items req h]

/-- Witness of C7: the request of the test "no items", with no store at all. -/
theorem C7_no_items_is_constraint_witness :
    ∃ cause,
      Create (σ := Unit) { CouponCode := "OVER9000", Items := [] } none () none none
        = (some ({}, some (apperr.NewError apperr.CodeConstraint cause).toGoError), ()) ∧
      cause.Error = "at least one item is required" :=
  C7_no_items_is_constraint { CouponCode := "OVER9000", Items := [] } none () none none rfl

/-- C8. For every request with at least one item, `Validate` returns `nil`
exactly when the list of all violations (per item in index order: missing product
id, then negative quantity) is empty, and otherwise it returns the join of one
error per violation, whose message is the violations joined by newlines. A
quantity of zero is accepted, and the single item with product id "1" and
quantity -1 gives the message "item[0] quantity cannot be less than zero". -/
theorem C8_validate_reports_all (req : OrderReq) (h : req.Items ≠ []) :
    (req.Validate = none ↔ violations req.Items = []) ∧
    (violations req.Items ≠ [] →
      req.Validate = some (GoError.join ((violations req.Items).map GoError.plain)) ∧
      (GoError.join ((violations req.Items).map GoError.plain)).Error
        = "\n".intercalate (violations req.Items)) ∧
    ({ Items := [{ ProductID := "1", Quantity := 0 }] } : OrderReq).Validate = none ∧
    (({ Items := [{ ProductID := "1", Quantity := -1 }] } : OrderReq).Validate).map GoError.Error
      = some "item[0] quantity cannot be less than zero" := by
  have hv := validate_of_items req h
  refine ⟨?_, ?_, rfl, rfl⟩
  · rw [hv]
    by_cases hvi : violations req.Items = [] <;> simp [hvi]
  · intro hne
    refine ⟨by rw [hv]; simp [hne], ?_⟩
    simp [GoError.Error, ErrorList_map_plain]

/-- Witness of C8: two items, the first with no product id and a negative
quantity, the second with a negative quantity; all three violations are reported
in order. -/
theorem C8_validate_reports_all_witness :
    (({ Items := [{ ProductID := "", Quantity := -2 }, { ProductID := "7", Quantity := -1 }] }
        : OrderReq).Validate).map GoError.Error
      = some ("item[0] productId is required\n" ++
          "item[0] quantity cannot be less than zero\n" ++
          "item[1] quantity cannot be less than zero") ∧
    violations [{ ProductID := "", Quantity := -2 }, { ProductID := "7", Quantity := -1 }]
      = ["item[0] productId is required", "item[0] quantity cannot be less than zero",
         "item[1] quantity cannot be less than zero"] ∧
    (({ Items := [{ ProductID := "", Quantity := -2 }, { ProductID := "7", Quantity := -1 }] }
        : OrderReq).Validate = none ↔
      violations [{ ProductID := "", Quantity := -2 }, { ProductID := "7", Quantity := -1 }]
        = []) :=
  ⟨rfl, rfl,
    (C8_validate_reports_all
      { Items := [{ ProductID := "", Quantity := -2 }, { ProductID := "7", Quantity := -1 }] }
      (by simp)).1⟩

/-- C9. For a structurally valid request: with a non-empty coupon code for which
the coupon store's `Has` is false, `orders.Create` returns the zero order with the
`apperr.Error` of code Constraint and cause "invalid couponCode specified", and
leaves the order store alone. With an empty coupon code the result is the same
for every coupon store, also a `nil` one (the store is not consulted); `Create`
returns that error only if the order store itself returned it, and with the
in-memory order store it never does. -/
theorem C9_coupon_check {σ : Type} (req : OrderReq) (os : Option (Store σ)) (s : σ)
    (ps : Option products.Store) (cs : Option coupons.Store)
    (hval : req.Validate = none) :
    (∀ c, cs = some c → req.CouponCode ≠ "" → c.Has req.CouponCode = false →
      Create req os s ps cs = (some ({}, some couponErr), s) ∧
      couponErr = GoError.app apperr.CodeConstraint
        (GoError.plain "invalid couponCode specified")) ∧
    (req.CouponCode = "" →
      (∀ cs2, Create req os s ps cs2 = Create req os s ps cs) ∧
      (∀ o, (Create req os s ps cs).1 = some (o, some couponErr) →
        ∃ st ord, os = some st ∧ (st.Create ord s).1 = (o, some couponErr)) ∧
      (∀ rand m o, (Create req (some (NewMem rand)) m ps cs).1 ≠ some (o, some couponErr))) := by
  refine ⟨?_, ?_⟩
  · intro c hc hne hhas
    subst hc
    refine ⟨?_, rfl⟩
    simp [Create, hval, couponRejected, hne, hhas, couponErr]
  · intro hempty
    have hcr : ∀ cs2, couponRejected req.CouponCode cs2 = some false :=
      fun cs2 => couponRejected_of_passed _ _ (Or.inl hempty)
    have hprov : ∀ {τ : Type} (os2 : Option (Store τ)) (t : τ) (o : Order),
        (Create req os2 t ps cs).1 = some (o, some couponErr) →
        ∃ st ord, os2 = some st ∧ (st.Create ord t).1 = (o, some couponErr) := by
      intro τ os2 t o ho
      simp only [Create, hval, hcr] at ho
      cases hpl : productsForItems req.Items ps with
      | none => simp [hpl] at ho
      | some r =>
        rcases r with ⟨prods, e⟩
        cases e with
        | some err =>
          simp only [hpl, Option.some.injEq, Prod.mk.injEq] at ho
          obtain ⟨-, herr⟩ := ho
          exfalso
          rcases productsLoop_err_shape ps req.Items [] prods err hpl with h1 | ⟨m, e, h2⟩
          · rw [h1] at herr
            simp [couponErr, apperr.NewError, apperr.Error.toGoError] at herr
          · rw [h2] at herr
            simp [couponErr, apperr.NewError, apperr.Error.toGoError] at herr
        | none =>
          cases os2 with
          | none => simp [hpl] at ho
          | some st =>
            simp only [hpl, Option.some.injEq] at ho
            exact ⟨st, _, rfl, ho⟩
    refine ⟨fun cs2 => by simp [Create, hval, hcr], hprov os s, ?_⟩
    intro rand m o ho
    obtain ⟨st, ord, hst, hc⟩ := hprov _ m o ho
    cases hst
    obtain ⟨msg, e, he⟩ := memCreate_err_shape rand ord o m couponErr hc
    simp [couponErr, apperr.NewError, apperr.Error.toGoError] at he

/-- Witness of C9: the request of the test "coupon not in list", against an
empty coupon store and no other store. -/
theorem C9_coupon_check_witness :
    (∀ c, some (coupons.Mem.toStore []) = some c →
      ({ testReq with CouponCode := "UNDER9000" } : OrderReq).CouponCode ≠ "" →
      c.Has ({ testReq with CouponCode := "UNDER9000" } : OrderReq).CouponCode = false →
      Create (σ := Unit) { testReq with CouponCode := "UNDER9000" } none () none
          (some (coupons.Mem.toStore []))
        = (some ({}, some couponErr), ()) ∧
      couponErr = GoError.app apperr.CodeConstraint
        (GoError.plain "invalid couponCode specified")) ∧
    (({ testReq with CouponCode := "UNDER9000" } : OrderReq).CouponCode = "" →
      (∀ cs2, Create (σ := Unit) { testReq with CouponCode := "UNDER9000" } none () none cs2
        = Create (σ := Unit) { testReq with CouponCode := "UNDER9000" } none () none
            (some (coupons.Mem.toStore []))) ∧
      (∀ o, (Create (σ := Unit) { testReq with CouponCode := "UNDER9000" } none () none
            (some (coupons.Mem.toStore []))).1 = some (o, some couponErr) →
        ∃ st ord, (none : Option (Store Unit)) = some st ∧
          (st.Create ord ()).1 = (o, some couponErr)) ∧
      (∀ rand m o, (Create { testReq with CouponCode := "UNDER9000" } (some (NewMem rand)) m
          none (some (coupons.Mem.toStore []))).1 ≠ some (o, some couponErr))) :=
  C9_coupon_check { testReq with CouponCode := "UNDER9000" } none () none
    (some (coupons.Mem.toStore [])) rfl

/-- C10. When the request path starts with none of the exempted prefixes and the
value of the `api_key` header (empty when absent) is not a key of the provider,
`AuthenticatedHandler` only writes status 401 (on a fresh response the status is
401 and the body is empty) and logs one warning; the handlers' state is
untouched, and the outcome is the same for every next handler and every clock
reading, so neither `next` nor the token validity check takes part. -/
theorem C10_unknown_credential_unauthorized {σ : Type} (p : StaticAuthProvider)
    (next : Handler σ) (excepts : List String) (now : Time) (r : Request) (c : Conn σ)
    (hex : ∀ e ∈ excepts, HasPrefix r.Path e = false)
    (hkey : p r.HeaderGetAPIKey = none) :
    (AuthenticatedHandler p next excepts now r c).w = c.w.WriteHeader 401 ∧
    (c.w = {} →
      (AuthenticatedHandler p next excepts now r c).w = { status := some 401, body := [] }) ∧
    (AuthenticatedHandler p next excepts now r c).state = c.state ∧
    (AuthenticatedHandler p next excepts now r c).logs
      = c.logs ++ [("WARN", "request does not contain expected credentions")] ∧
    (∀ (next2 : Handler σ) (now2 : Time),
      AuthenticatedHandler p next2 excepts now2 r c
        = AuthenticatedHandler p next excepts now r c) := by
  have hany : (excepts.any fun except => HasPrefix r.Path except) = false := by
    simpa [List.any_eq_false] using hex
  have hall : ∀ (nx : Handler σ) (t : Time), AuthenticatedHandler p nx excepts t r c =
      { c.Log "WARN" "request does not contain expected credentions" with
        w := c.w.WriteHeader StatusUnauthorized } := by
    intro nx t
    simp [AuthenticatedHandler, hany, hkey, Conn.Log]
  refine ⟨by rw [hall]; rfl, ?_, by rw [hall]; rfl, by rw [hall]; rfl, ?_⟩
  · intro hfresh
    rw [hall]
    simp only [hfresh]
    rfl
  · intro next2 now2
    rw [hall, hall]

/-- Witness of C10: the request of the test "no token", a POST to "/order"
without the `api_key` header, with "/product" exempted. -/
theorem C10_unknown_credential_unauthorized_witness :
    (AuthenticatedHandler (TestAuth 1000 365) countingHandler ["/product"] 1001
        { Path := "/order" } { state := 0 }).w
      = ({} : ResponseWriter).WriteHeader 401 ∧
    (({} : ResponseWriter) = {} →
      (AuthenticatedHandler (TestAuth 1000 365) countingHandler ["/product"] 1001
        { Path := "/order" } { state := 0 }).w = { status := some 401, body := [] }) ∧
    (AuthenticatedHandler (TestAuth 1000 365) countingHandler ["/product"] 1001
        { Path := "/order" } { state := 0 }).state = 0 ∧
    (AuthenticatedHandler (TestAuth 1000 365) countingHandler ["/product"] 1001
        { Path := "/order" } { state := 0 }).logs
      = [] ++ [("WARN", "request does not contain expected credentions")] ∧
    (∀ (next2 : Handler Nat) (now2 : Time),
      AuthenticatedHandler (TestAuth 1000 365) next2 ["/product"] now2
          { Path := "/order" } { state := 0 }
        = AuthenticatedHandler (TestAuth 1000 365) countingHandler ["/product"] 1001
          { Path := "/order" } { state := 0 }) :=
  C10_unknown_credential_unauthorized (TestAuth 1000 365) countingHandler ["/product"] 1001
    { Path := "/order" } { state := 0 } (by decide) (by decide)

section helpers_auth

theorem any_hasPrefix_false (path : String) (excepts : List String)
    (hex : ∀ e ∈ excepts, HasPrefix path e = false) :
    (excepts.any fun except => HasPrefix path except) = false := by
  simpa [List.any_eq_false] using hex

/-- A token is outside its window exactly when `Validate` returns an error. -/
theorem validate_isSome_of_outside (t : Token) (now : Time)
    (h : now < t.ValidFrom ∨ now > t.ExpiresAt) : ∃ err, t.Validate now = some err := by
  unfold Token.Validate
  by_cases h1 : now < t.ValidFrom
  · exact ⟨GoError.plain "token presented before ValidFrom", by simp [h1]⟩
  · rcases h with h | h
    · exact absurd h h1
    · exact ⟨GoError.plain "token presented after ExpiresAt", by simp [h1, h]⟩

end helpers_auth

/-- C11. When the request path starts with none of the exempted prefixes, the
`api_key` value is the key of a token, and the current time is before the token's
`ValidFrom` or after its `ExpiresAt`, `AuthenticatedHandler` only writes status
403 (on a fresh response the status is 403 and the body is empty); the handlers'
state is untouched and the response and state are the same for every next
handler. The response does not depend on which boundary is violated. -/
theorem C11_outside_window_forbidden {σ : Type} (p : StaticAuthProvider)
    (next : Handler σ) (excepts : List String) (now : Time) (r : Request) (c : Conn σ)
    (token : Token)
    (hex : ∀ e ∈ excepts, HasPrefix r.Path e = false)
    (hkey : p r.HeaderGetAPIKey = some token)
    (hout : now < token.ValidFrom ∨ now > token.ExpiresAt) :
    (AuthenticatedHandler p next excepts now r c).w = c.w.WriteHeader 403 ∧
    (c.w = {} →
      (AuthenticatedHandler p next excepts now r c).w = { status := some 403, body := [] }) ∧
    (AuthenticatedHandler p next excepts now r c).state = c.state ∧
    (∀ next2 : Handler σ,
      AuthenticatedHandler p next2 excepts now r c
        = AuthenticatedHandler p next excepts now r c) := by
  have hany := any_hasPrefix_false r.Path excepts hex
  obtain ⟨err, herr⟩ := validate_isSome_of_outside token now hout
  have hall : ∀ nx : Handler σ, AuthenticatedHandler p nx excepts now r c =
      { c.Log "WARN" ("invalid token presented: " ++ err.Error) with
        w := c.w.WriteHeader StatusForbidden } := by
    intro nx
    simp [AuthenticatedHandler, hany, hkey, herr, Conn.Log]
  refine ⟨by rw [hall]; rfl, ?_, by rw [hall]; rfl, ?_⟩
  · intro hfresh
    rw [hall]
    simp only [hfresh]
    rfl
  · intro next2
    rw [hall, hall]

/-- Witness of C11: the token "toolate" of `TestAuth`, expired a year before. -/
theorem C11_outside_window_forbidden_witness :
    (AuthenticatedHandler (TestAuth 1000 365) countingHandler Server.excepts 1001
        { Path := "/order", APIKey := some "toolate" } { state := 0 }).w
      = ({} : ResponseWriter).WriteHeader 403 ∧
    (({} : ResponseWriter) = {} →
      (AuthenticatedHandler (TestAuth 1000 365) countingHandler Server.excepts 1001
        { Path := "/order", APIKey := some "toolate" } { state := 0 }).w
        = { status := some 403, body := [] }) ∧
    (AuthenticatedHandler (TestAuth 1000 365) countingHandler Server.excepts 1001
        { Path := "/order", APIKey := some "toolate" } { state := 0 }).state = 0 ∧
    (∀ next2 : Handler Nat,
      AuthenticatedHandler (TestAuth 1000 365) next2 Server.excepts 1001
          { Path := "/order", APIKey := some "toolate" } { state := 0 }
        = AuthenticatedHandler (TestAuth 1000 365) countingHandler Server.excepts 1001
          { Path := "/order", APIKey := some "toolate" } { state := 0 }) :=
  C11_outside_window_forbidden (TestAuth 1000 365) countingHandler Server.excepts 1001
    { Path := "/order", APIKey := some "toolate" } { state := 0 }
    { ValidFrom := 1000 - 365, ExpiresAt := 1000 - 365 }
    (by decide) (by decide) (Or.inr (by decide))

/-- C12. `ScopedHandler` hands the request to the next handler exactly when the
request context carries a token whose scope set contains the required scope.
In every other case (no token in the context, a token with a `nil` scope set, a
token without the scope) it only writes status 403, leaves the handlers' state
untouched, and gives the same result for every next handler. It is a total
function: it returns in every case. -/
theorem C12_scoped_handler {σ : Type} (scope : String) (next : Handler σ) (r : Request)
    (c : Conn σ) :
    ((∃ t ks, r.ctxToken = some t ∧ t.Scopes = some ks ∧ scope ∈ ks) →
      ScopedHandler scope next r c = next r c) ∧
    ((¬ ∃ t ks, r.ctxToken = some t ∧ t.Scopes = some ks ∧ scope ∈ ks) →
      (ScopedHandler scope next r c).w = c.w.WriteHeader 403 ∧
      (c.w = {} → (ScopedHandler scope next r c).w = { status := some 403, body := [] }) ∧
      (ScopedHandler scope next r c).state = c.state ∧
      (∀ next2 : Handler σ, ScopedHandler scope next2 r c = ScopedHandler scope next r c)) := by
  constructor
  · rintro ⟨t, ks, ht, hks, hmem⟩
    simp [ScopedHandler, TokenFromContext, ht, hks, hmem]
  · intro hno
    have hall : ∀ nx : Handler σ, ∃ lvl msg, ScopedHandler scope nx r c =
        { c.Log lvl msg with w := c.w.WriteHeader StatusForbidden } ∧
        ScopedHandler scope nx r c = ScopedHandler scope next r c := by
      intro nx
      cases ht : r.ctxToken with
      | none => exact ⟨"ERROR", "scoped handler didn't find a token, router set up incorrectly",
          by simp [ScopedHandler, TokenFromContext, ht, Conn.Log],
          by simp [ScopedHandler, TokenFromContext, ht]⟩
      | some t =>
        cases hks : t.Scopes with
        | none => exact ⟨"WARN", "token missing required scope: " ++ scope,
            by simp [ScopedHandler, TokenFromContext, ht, hks, Conn.Log],
            by simp [ScopedHandler, TokenFromContext, ht, hks]⟩
        | some ks =>
          have hmem : scope ∉ ks := fun hm => hno ⟨t, ks, ht, hks, hm⟩
          exact ⟨"WARN", "token missing required scope: " ++ scope,
            by simp [ScopedHandler, TokenFromContext, ht, hks, hmem, Conn.Log],
            by simp [ScopedHandler, TokenFromContext, ht, hks, hmem]⟩
    obtain ⟨lvl, msg, heq, -⟩ := hall next
    refine ⟨by rw [heq]; rfl, ?_, by rw [heq]; rfl, fun next2 => (hall next2).choose_spec.choose_spec.2⟩
    intro hfresh
    rw [heq]
    simp only [hfresh]
    rfl

/-- Counterexample to C13 as stated: for a token whose window is inverted
(`ValidFrom` 10, `ExpiresAt` 0) the time 5 is after `ExpiresAt`, yet `Validate`
returns the error "token presented before ValidFrom", not the expired one; and
the boundary time 10 is rejected. -/
theorem C13_inverted_window_not_expired_error :
    (5 : Time) > ({ ValidFrom := 10, ExpiresAt := 0 } : Token).ExpiresAt ∧
    (({ ValidFrom := 10, ExpiresAt := 0 } : Token).Validate 5).map GoError.Error
      = some "token presented before ValidFrom" ∧
    (({ ValidFrom := 10, ExpiresAt := 0 } : Token).Validate 5).map GoError.Error
      ≠ some "token presented after ExpiresAt" ∧
    (({ ValidFrom := 10, ExpiresAt := 0 } : Token).Validate 10).map GoError.Error
      = some "token presented after ExpiresAt" := by
  decide

/-- C13 (amended). For every token and time, with no assumption on the window:
`Validate` fails with "token presented before ValidFrom" when the time is before
`ValidFrom`; it fails with "token presented after ExpiresAt" when the time is
not before `ValidFrom` and is after `ExpiresAt`; otherwise it succeeds. When
`ValidFrom <= ExpiresAt`, a time after `ExpiresAt` gives the expired error and
both boundary times are accepted. -/
theorem C13_validate_window (t : Token) (now : Time) :
    (now < t.ValidFrom →
      t.Validate now = some (GoError.plain "token presented before ValidFrom")) ∧
    (¬ now < t.ValidFrom → now > t.ExpiresAt →
      t.Validate now = some (GoError.plain "token presented after ExpiresAt")) ∧
    (¬ now < t.ValidFrom → ¬ now > t.ExpiresAt → t.Validate now = none) ∧
    (t.ValidFrom ≤ t.ExpiresAt →
      (now > t.ExpiresAt →
        t.Validate now = some (GoError.plain "token presented after ExpiresAt")) ∧
      t.Validate t.ValidFrom = none ∧ t.Validate t.ExpiresAt = none) := by
  refine ⟨?_, ?_, ?_, ?_⟩
  · intro h
    simp [Token.Validate, h]
  · intro h1 h2
    simp [Token.Validate, h1, h2]
  · intro h1 h2
    simp [Token.Validate, h1, h2]
  · intro hw
    refine ⟨?_, ?_, ?_⟩
    · intro h2
      have h1 : ¬ now < t.ValidFrom := not_lt.2 (le_of_lt (lt_of_le_of_lt hw h2))
      simp [Token.Validate, h1, h2]
    · have h2 : ¬ t.ValidFrom > t.ExpiresAt := not_lt.2 hw
      simp [Token.Validate, h2]
    · have h1 : ¬ t.ExpiresAt < t.ValidFrom := not_lt.2 hw
      simp [Token.Validate, h1]

/-- C14. When the request path starts with one of the exempted prefixes,
`AuthenticatedHandler` is the next handler run once on the same request and
connection: no token is attached, nothing is written or logged by the middleware,
whatever the provider, the `api_key` header and the clock. -/
theorem C14_exempt_path_skips_auth {σ : Type} (p : StaticAuthProvider) (next : Handler σ)
    (excepts : List String) (now : Time) (r : Request) (c : Conn σ)
    (hex : ∃ e ∈ excepts, HasPrefix r.Path e = true) :
    AuthenticatedHandler p next excepts now r c = next r c ∧
    (∀ (key : Option String) (p2 : StaticAuthProvider) (now2 : Time),
      AuthenticatedHandler p2 next excepts now2 { r with APIKey := key } c
        = next { r with APIKey := key } c) := by
  have hany : ∀ r2 : Request, r2.Path = r.Path →
      (excepts.any fun except => HasPrefix r2.Path except) = true := by
    intro r2 hr2
    obtain ⟨e, he, hp⟩ := hex
    rw [hr2]
    exact List.any_eq_true.2 ⟨e, he, hp⟩
  refine ⟨by simp [AuthenticatedHandler, hany r rfl], ?_⟩
  intro key p2 now2
  simp [AuthenticatedHandler, hany { r with APIKey := key } rfl]

/-- Witness of C14: the request of `TestListProduct`, "/product" with no
`api_key` header; the next handler runs once and answers 200. -/
theorem C14_exempt_path_skips_auth_witness :
    AuthenticatedHandler (TestAuth 1000 365) countingHandler Server.excepts 1001
        { Path := "/product" } { state := 0 }
      = countingHandler { Path := "/product" } { state := 0 } ∧
    (∀ (key : Option String) (p2 : StaticAuthProvider) (now2 : Time),
      AuthenticatedHandler p2 countingHandler Server.excepts now2
          { ({ Path := "/product" } : Request) with APIKey := key } { state := 0 }
        = countingHandler { ({ Path := "/product" } : Request) with APIKey := key }
            { state := 0 }) :=
  C14_exempt_path_skips_auth (TestAuth 1000 365) countingHandler Server.excepts 1001
    { Path := "/product" } { state := 0 } ⟨"/product", by decide, by decide⟩

/-- C15. For every slice, `Slice.List` with `page < 0` or `pageSize < 1` returns
no products (the `nil` slice) and an `apperr.Error` of code Validation; it does
not panic. -/
theorem C15_list_rejects_bad_paging (s : products.Slice) (page pageSize : Int)
    (h : page < 0 ∨ pageSize < 1) :
    ∃ cause, products.Slice.List s page pageSize
      = some ([], some (apperr.NewError apperr.CodeValidation cause).toGoError) := by
  unfold products.Slice.List
  by_cases hp : page < 0
  · exact ⟨GoError.plain "page must be zero or greater", by
      simp [hp, apperr.NewError, apperr.Error.toGoError]⟩
  · rcases h with h | h
    · exact absurd h hp
    · exact ⟨GoError.plain "pageSize must be greater than zero", by
        simp [hp, h, apperr.NewError, apperr.Error.toGoError]⟩

/-- Witness of C15: page 0 with page size 0 on the products of the tests. -/
theorem C15_list_rejects_bad_paging_witness :
    ∃ cause, products.Slice.List testProducts 0 0
      = some ([], some (apperr.NewError apperr.CodeValidation cause).toGoError) :=
  C15_list_rejects_bad_paging testProducts 0 0 (Or.inr (by decide))

/-- C16, the code at a failing input. Page 2^62 with page size 2 are values of a
64-bit `int` with `page >= 0` and `pageSize >= 1`; their product wraps to -2^63,
the lower bound of the slice expression is negative, and `Slice.List` panics on
the three products of the tests. For arguments whose products and sums do not
wrap, such as those of the tests, the page is the one expected. -/
theorem C16_list_panics_on_overflow :
    (0 : Int) ≤ 2 ^ 62 ∧ (2 : Int) ^ 62 < 2 ^ 63 ∧ (1 : Int) ≤ 2 ∧
    products.wrapInt64 (2 * 2 ^ 62) = -(2 ^ 63) ∧
    products.Slice.List testProducts (2 ^ 62) 2 = none ∧
    products.Slice.List testProducts 1 (2 ^ 63 - 1) = none ∧
    products.Slice.List testProducts 1 1
      = some ([{ ID := "2", Category := "Cake", Name := "Carrot" }], none) ∧
    products.Slice.List testProducts 0 4 = some (testProducts, none) ∧
    products.Slice.List testProducts 4 4 = some ([], none) := by
  refine ⟨by decide, by decide, by decide, by decide, rfl, rfl, rfl, rfl, rfl⟩

section helpers_routes

theorem sliceGet_of_first (pre post : List products.Product) (v : products.Product)
    (id : String) (hv : v.ID = id) (hpre : ∀ x ∈ pre, x.ID ≠ id) :
    products.Slice.Get (pre ++ v :: post) id = (v, none) := by
  induction pre with
  | nil => simp [products.Slice.Get, hv]
  | cons x xs ih =>
    have hx : x.ID ≠ id := hpre x (List.mem_cons_self _ _)
    simp only [List.cons_append, products.Slice.Get, hx, if_false]
    exact ih (fun y hy => hpre y (List.mem_cons_of_mem _ hy))

theorem sliceGet_of_absent (s : products.Slice) (id : String) (h : ∀ x ∈ s, x.ID ≠ id) :
    products.Slice.Get s id = ({}, some (GoError.app apperr.CodeNotFound
      (GoError.plain ("product " ++ id ++ " not found")))) := by
  induction s with
  | nil => rfl
  | cons x xs ih =>
    have hx : x.ID ≠ id := h x (List.mem_cons_self _ _)
    simp only [products.Slice.Get, hx, if_false]
    exact ih (fun y hy => h y (List.mem_cons_of_mem _ hy))

end helpers_routes

/-- C17, the code at a failing input. For the body with quantity -1,
`createOrder` writes status 422 and then two documents: the error payload with
code "constraint" and message "item[0] quantity cannot be less than zero", and
after it the zero order. The same holds for every decoded request for which
`orders.Create` returns an error: the handler calls `handleErr` and then still
encodes the order that `Create` returned. -/
theorem C17_failed_create_writes_second_document :
    (Option.map (fun c => c.w)
      (Server.createOrder testServer testDecode
        { Path := "/order", APIKey := some "apitest", Body := negativeQuantityBody }
        { state := {} }))
      = some { status := some 422,
               body := [Payload.error ⟨"constraint", "item[0] quantity cannot be less than zero"⟩,
                        Payload.order {}] } ∧
    (∀ (σ : Type) (s : Server σ) (decode : String → Except GoError OrderReq) (r : Request)
        (c : Conn σ) (req : OrderReq) (o : Order) (e : GoError) (st : σ),
      decode r.Body = Except.ok req →
      Create req s.Orders c.state s.Products s.Coupons = (some (o, some e), st) →
      Option.map (fun c => c.w) (Server.createOrder s decode r c)
        = some ((handleErr { c with state := st } e).w.Encode (Payload.order o))) := by
  refine ⟨by decide, ?_⟩
  intro σ s decode r c req o e st hdec hcreate
  simp [Server.createOrder, hdec, hcreate]

/-- C18. For every slice and id: when some product has the id, `Slice.Get`
returns the first such product and no error. When none has it, `Get` returns the
`apperr.Error` of code NotFound whose cause is "product <id> not found", and the
`getProduct` handler of a server over that slice answers a fresh response with
status 404 and the payload with code "not found" and that message. -/
theorem C18_slice_get (s : products.Slice) (id : String) :
    (∀ pre v post, s = pre ++ v :: post → v.ID = id → (∀ x ∈ pre, x.ID ≠ id) →
      products.Slice.Get s id = (v, none)) ∧
    ((∀ x ∈ s, x.ID ≠ id) →
      products.Slice.Get s id
        = ({}, some (apperr.NewError apperr.CodeNotFound
            (GoError.plain ("product " ++ id ++ " not found"))).toGoError) ∧
      (GoError.plain ("product " ++ id ++ " not found")).Error
        = "product " ++ id ++ " not found" ∧
      ∀ (σ : Type) (srv : Server σ) (r : Request) (c : Conn σ),
        srv.Products = some (products.Slice.toStore s) → c.w = {} →
        Option.map (fun c => c.w) (srv.getProduct id r c)
          = some { status := some 404,
                   body := [Payload.error ⟨"not found", "product " ++ id ++ " not found"⟩] }) := by
  refine ⟨?_, ?_⟩
  · intro pre v post hs hv hpre
    rw [hs]
    exact sliceGet_of_first pre post v id hv hpre
  · intro habs
    have hget := sliceGet_of_absent s id habs
    refine ⟨hget, rfl, ?_⟩
    intro σ srv r c hps hw
    simp only [Server.getProduct, hps, products.Slice.toStore, hget, Option.map_some',
      Option.some.injEq]
    simp [handleErr, GoError.asServerError, appErrToServer, GoError.asAppErr, Conn.Log, hw,
      apperr.CodeNotFound, apperr.CodeValidation, apperr.CodeConstraint, ErrCodeNotFound,
      ErrCodeValidation, ErrCodeConstraint, ErrInternal, ServerError.StatusCode, StatusNotFound,
      GoError.Error, ResponseWriter.WriteHeader, ResponseWriter.Encode, StatusOK]

/-- C20. When the body fails to decode, `createOrder` hands `handleErr` the
`ServerError` with code "bad request" and the message "invalid request payload: "
followed by the decoder's message; the status written is 500 and the payload is
that `ServerError`. `orders.Create` is not called: the state of the order store
is untouched and the result is the same for every server, also one with `nil`
stores. `StatusCode` is 500 for every code other than "validation", "not found"
and "constraint". -/
theorem C20_undecodable_body {σ : Type} (s : Server σ)
    (decode : String → Except GoError OrderReq) (r : Request) (c : Conn σ) (err : GoError)
    (h : decode r.Body = Except.error err) :
    Server.createOrder s decode r c
      = some (handleErr c (GoError.server "bad request"
          ("invalid request payload: " ++ err.Error))) ∧
    Option.map (fun c => c.w) (Server.createOrder s decode r c)
      = some ((c.w.WriteHeader 500).Encode (Payload.error
          { Code := "bad request", Message := "invalid request payload: " ++ err.Error })) ∧
    Option.map (fun c => c.state) (Server.createOrder s decode r c) = some c.state ∧
    (∀ s2 : Server σ, Server.createOrder s2 decode r c = Server.createOrder s decode r c) ∧
    (∀ code msg : String, code ≠ "validation" → code ≠ "not found" → code ≠ "constraint" →
      ({ Code := code, Message := msg } : ServerError).StatusCode = 500) := by
  have hall : ∀ s2 : Server σ, Server.createOrder s2 decode r c
      = some (handleErr c (GoError.server "bad request"
          ("invalid request payload: " ++ err.Error))) := by
    intro s2
    simp [Server.createOrder, h, ServerError.toGoError, ErrCodeBadRequest]
  refine ⟨hall s, ?_, ?_, fun s2 => by rw [hall, hall], ?_⟩
  · rw [hall]
    simp [handleErr, GoError.asServerError, Conn.Log, ServerError.StatusCode, ErrCodeValidation,
      ErrCodeNotFound, ErrCodeConstraint, StatusInternalServerError]
  · rw [hall]
    simp [handleErr, Conn.Log]
  · intro code msg h1 h2 h3
    simp [ServerError.StatusCode, ErrCodeValidation, ErrCodeNotFound, ErrCodeConstraint, h1, h2,
      h3, StatusInternalServerError]

/-- Witness of C20: an empty body, as in the tests that post no body. -/
theorem C20_undecodable_body_witness :
    Server.createOrder testServer testDecode { Path := "/order", APIKey := some "apitest" }
        { state := {} }
      = some (handleErr { state := {} } (GoError.server "bad request"
          ("invalid request payload: " ++ (GoError.plain "EOF").Error))) ∧
    Option.map (fun c => c.w)
        (Server.createOrder testServer testDecode
          { Path := "/order", APIKey := some "apitest" } { state := {} })
      = some ((({} : ResponseWriter).WriteHeader 500).Encode (Payload.error
          ⟨"bad request", "invalid request payload: " ++ (GoError.plain "EOF").Error⟩)) ∧
    Option.map (fun c => c.state)
        (Server.createOrder testServer testDecode
          { Path := "/order", APIKey := some "apitest" } { state := {} })
      = some {} ∧
    (∀ s2 : Server MemState,
      Server.createOrder s2 testDecode { Path := "/order", APIKey := some "apitest" }
          { state := {} }
        = Server.createOrder testServer testDecode
            { Path := "/order", APIKey := some "apitest" } { state := {} }) ∧
    (∀ code msg : String, code ≠ "validation" → code ≠ "not found" → code ≠ "constraint" →
      ({ Code := code, Message := msg } : ServerError).StatusCode = 500) :=
  C20_undecodable_body testServer testDecode { Path := "/order", APIKey := some "apitest" }
    { state := {} } (GoError.plain "EOF") rfl

section helpers_tool

open tools.coupons

theorem scanInv_init : ScanInv { seen := fun _ => 0, seenTwo := [] } [] := by
  refine ⟨fun k => by simp, List.nodup_nil, fun k => by simp⟩

theorem scanLine_of_invalid (st : Scan) (text : String) (h : validCoupon text = false) :
    scanLine st text = st := by
  have : text.utf8ByteSize < 8 ∨ text.utf8ByteSize > 10 := by
    simp only [validCoupon, Bool.and_eq_false_iff, decide_eq_false_iff_not, not_le] at h
    exact h
  simp [scanLine, this]

theorem scanInv_step (st : Scan) (done : List String) (text : String)
    (h : ScanInv st done) : ScanInv (scanLine st text) (done ++ [text]) := by
  obtain ⟨hseen, hnd, hmem⟩ := h
  cases hv : validCoupon text with
  | false =>
    rw [scanLine_of_invalid st text hv]
    have hne : ∀ k, validCoupon k = true → k ≠ text := by
      intro k hk hkt
      rw [hkt, hv] at hk
      exact Bool.noConfusion hk
    refine ⟨?_, hnd, ?_⟩
    · intro k
      rw [hseen k]
      cases hk : validCoupon k with
      | false => simp
      | true =>
        have := hne k hk
        simp [List.count_append, List.count_singleton, this.symm]
    · intro k
      rw [hmem k]
      constructor
      · rintro ⟨hk, h2⟩
        exact ⟨hk, by simp only [List.count_append]; omega⟩
      · rintro ⟨hk, h2⟩
        have := hne k hk
        refine ⟨hk, ?_⟩
        simpa [List.count_append, List.count_singleton, this.symm] using h2
  | true =>
    have hsize : ¬ (text.utf8ByteSize < 8 ∨ text.utf8ByteSize > 10) := by
      simp only [validCoupon, Bool.and_eq_true, decide_eq_true_eq] at hv
      omega
    have hst : st.seen text = done.count text := by rw [hseen text, hv]; rfl
    have hcnt : ∀ k, (done ++ [text]).count k =
        if k = text then done.count k + 1 else done.count k := by
      intro k
      by_cases hk : k = text
      · simp [List.count_append, hk]
      · have : ¬ text = k := fun h => hk h.symm
        simp [List.count_append, List.count_singleton, hk, this]
    have hseen2 : ∀ k, (if k = text then st.seen k + 1 else st.seen k)
        = if validCoupon k then (done ++ [text]).count k else 0 := by
      intro k
      rw [hcnt k, hseen k]
      by_cases hk : k = text
      · subst hk
        simp [hv]
      · simp [hk]
    by_cases h2 : done.count text + 1 = 2
    · have heq : scanLine st text =
          { seen := fun k => if k = text then st.seen k + 1 else st.seen k,
            seenTwo := st.seenTwo ++ [text] } := by
        simp [scanLine, hsize, hst, h2]
      rw [heq]
      have hnot : text ∉ st.seenTwo := by
        intro hin
        have := ((hmem text).1 hin).2
        omega
      refine ⟨hseen2, ?_, ?_⟩
      · exact List.Nodup.append hnd (List.nodup_singleton _) (by
          intro a ha hb
          rw [List.mem_singleton] at hb
          exact hnot (hb ▸ ha))
      · intro k
        simp only [List.mem_append, List.mem_singleton, hmem k, hcnt k]
        by_cases hk : k = text
        · subst hk
          simp only [hv, true_and, if_true]
          constructor
          · intro _
            omega
          · intro _
            exact Or.inr trivial
        · simp [hk]
    · have heq : scanLine st text =
          { seen := fun k => if k = text then st.seen k + 1 else st.seen k,
            seenTwo := st.seenTwo } := by
        simp [scanLine, hsize, hst, h2]
      rw [heq]
      refine ⟨hseen2, hnd, ?_⟩
      intro k
      simp only [hmem k, hcnt k]
      by_cases hk : k = text
      · subst hk
        simp only [if_true]
        constructor
        · rintro ⟨a, b⟩
          exact ⟨a, by omega⟩
        · rintro ⟨a, b⟩
          exact ⟨a, by omega⟩
      · simp [hk]

theorem scanInv_foldl (ls done : List String) (st : Scan) (h : ScanInv st done) :
    ScanInv (ls.foldl scanLine st) (done ++ ls) := by
  induction ls generalizing st done with
  | nil => simpa using h
  | cons x xs ih =>
    have := ih (done ++ [x]) (scanLine st x) (scanInv_step st done x h)
    simpa [List.foldl_cons, List.append_assoc] using this

theorem scanLines_of_live (ctx : Nat → Option GoError) (hctx : ∀ k, ctx k = none)
    (ls : List String) (k : Nat) (st : Scan) :
    scanLines ctx k st ls = Except.ok (ls.foldl scanLine st, k + ls.length) := by
  induction ls generalizing k st with
  | nil => rfl
  | cons x xs ih =>
    simp only [scanLines, hctx k, ih, List.foldl_cons, List.length_cons]
    congr 2
    omega

theorem scanFiles_of_readable (fs : String → Except GoError File)
    (ctx : Nat → Option GoError) (hctx : ∀ k, ctx k = none) (names : List String)
    (k : Nat) (st : Scan) (h : allReadable fs names = true) :
    scanFiles fs ctx k st names = Except.ok ((allLines fs names).foldl scanLine st) := by
  induction names generalizing k st with
  | nil => rfl
  | cons n ns ih =>
    simp only [allReadable, List.all_cons, Bool.and_eq_true] at h
    obtain ⟨hn, hns⟩ := h
    cases hf : fs n with
    | error e => simp [hf] at hn
    | ok f =>
      simp only [hf, Option.isNone_iff_eq_none] at hn
      simp only [scanFiles, hf, hn, scanLines_of_live ctx hctx, allLines, List.flatMap_cons,
        linesOf, List.foldl_append]
      exact ih _ _ hns

theorem writeSeen_of_ok {ω : Type} (dst : Writer ω)
    (hto : ∀ w s, (dst.WriteString w s).2 = none) (out : List String) (w : ω) :
    writeSeen dst w out = (written dst w (out.map (fun v => v ++ "\n")), none) := by
  induction out generalizing w with
  | nil => rfl
  | cons v vs ih =>
    rcases hw : dst.WriteString w (v ++ "\n") with ⟨w2, e⟩
    have he : e = none := by
      have := hto w (v ++ "\n")
      rw [hw] at this
      exact this
    subst he
    simp only [writeSeen, hw, ih, written, List.map_cons, List.foldl_cons]

/-- In files without repeated lines, a line occurs over all files as many times
as there are files holding it. -/
theorem count_allLines_of_nodup (fs : String → Except GoError File) (names : List String)
    (c : String) (h : ∀ n ∈ names, (linesOf fs n).Nodup) :
    (allLines fs names).count c = filesWith fs names c := by
  induction names with
  | nil => rfl
  | cons n ns ih =>
    have hn : (linesOf fs n).Nodup := h n (List.mem_cons_self _ _)
    have hns := ih (fun m hm => h m (List.mem_cons_of_mem _ hm))
    simp only [allLines, List.flatMap_cons, List.count_append] at hns ⊢
    rw [hns]
    by_cases hc : c ∈ linesOf fs n
    · simp [filesWith, List.filter_cons, hc, List.count_eq_one_of_mem hn hc, Nat.add_comm]
    · simp [filesWith, List.filter_cons, hc, List.count_eq_zero_of_not_mem hc]

end helpers_tool

/-- The scan over readable files with a live context lists, each once, the
lines of 8 to 10 bytes that occur at least twice over all lines scanned. -/
theorem scanFiles_seenTwo (fs : String → Except GoError tools.coupons.File)
    (ctx : Nat → Option GoError) (hctx : ∀ k, ctx k = none) (names : List String)
    (h : tools.coupons.allReadable fs names = true) :
    ∃ st, tools.coupons.scanFiles fs ctx 0 { seen := fun _ => 0, seenTwo := [] } names
        = Except.ok st ∧
      st.seenTwo.Nodup ∧
      ∀ c, c ∈ st.seenTwo ↔ tools.coupons.validCoupon c = true ∧
        2 ≤ (tools.coupons.allLines fs names).count c := by
  have hinv := scanInv_foldl (tools.coupons.allLines fs names) [] _ scanInv_init
  rw [List.nil_append] at hinv
  exact ⟨_, scanFiles_of_readable fs ctx hctx names 0 _ h, hinv.2.1, hinv.2.2⟩

/-- The error paths of `run`: a context cancelled before the second line makes
`run` return the context's error with nothing written, and a writer that fails
makes it return the wrapped write error. -/
theorem run_error_paths :
    tools.coupons.run tools.coupons.threeFiles (tools.coupons.cancelledAt 1)
        tools.coupons.buffer [] "a b c"
      = ([], some (GoError.plain "context canceled")) ∧
    tools.coupons.run tools.coupons.threeFiles tools.coupons.live
        tools.coupons.closedPipe [] "a b c"
      = ([], some (GoError.wrap "failed to write seen: write: broken pipe"
          (GoError.plain "write: broken pipe"))) ∧
    (tools.coupons.run tools.coupons.threeFiles tools.coupons.live
        tools.coupons.buffer [] "a d").1 = [] :=
  ⟨rfl, rfl, rfl⟩

/-- The code on a file that is not a set: "a" holds HAPPYHRS on two lines and
"b" does not hold it; `run` writes HAPPYHRS, which is in one file only. The
package comment speaks of coupons "that appear in more than one set". -/
theorem run_line_repeated_in_one_file :
    tools.coupons.run tools.coupons.dupFiles tools.coupons.live tools.coupons.buffer []
        "a b" = (["HAPPYHRS\n"], none) ∧
    tools.coupons.filesWith tools.coupons.dupFiles ["a", "b"] "HAPPYHRS" = 1 :=
  ⟨rfl, by decide⟩

/-- Counterexample to C19 as stated. The files "a" and "b" repeat no line and
both hold the five-byte line SHORT; with a live context and a writer that does
not fail, `run` returns no error and writes nothing, although SHORT is in more
than one of the files. -/
theorem C19_short_line_in_two_files_not_written :
    tools.coupons.run tools.coupons.shortFiles tools.coupons.live tools.coupons.buffer []
        "a b" = ([], none) ∧
    tools.coupons.filesWith tools.coupons.shortFiles ["a", "b"] "SHORT" = 2 ∧
    (tools.coupons.linesOf tools.coupons.shortFiles "a").Nodup ∧
    (tools.coupons.linesOf tools.coupons.shortFiles "b").Nodup ∧
    tools.coupons.validCoupon "SHORT" = false := by
  refine ⟨rfl, by decide, by decide, by decide, by decide⟩

/-- C19 (amended). When the context is never cancelled, every file named in the
flag value opens and scans without error, no file repeats a line (each file is a
set) and no write fails, `run` returns no error and writes, one per line and
each once, exactly the lines that are 8 to 10 bytes long and are in more than
one of the files. -/
theorem C19_writes_valid_coupons_of_two_sets {ω : Type}
    (fs : String → Except GoError tools.coupons.File) (ctx : Nat → Option GoError)
    (dst : tools.coupons.Writer ω) (w : ω) (files : String)
    (hctx : ∀ k, ctx k = none)
    (hok : tools.coupons.allReadable fs (tools.coupons.splitSpaces [] files.data) = true)
    (hsets : ∀ n ∈ tools.coupons.splitSpaces [] files.data,
      (tools.coupons.linesOf fs n).Nodup)
    (hto : ∀ w s, (dst.WriteString w s).2 = none) :
    ∃ out : List String,
      tools.coupons.run fs ctx dst w files
        = (tools.coupons.written dst w (out.map (fun v => v ++ "\n")), none) ∧
      out.Nodup ∧
      ∀ c, c ∈ out ↔ tools.coupons.validCoupon c = true ∧
        2 ≤ tools.coupons.filesWith fs (tools.coupons.splitSpaces [] files.data) c := by
  obtain ⟨st, hscan, hnd, hmem⟩ := scanFiles_seenTwo fs ctx hctx _ hok
  refine ⟨st.seenTwo, ?_, hnd, ?_⟩
  · simp only [tools.coupons.run, hscan, writeSeen_of_ok dst hto]
  · intro c
    rw [hmem c, count_allLines_of_nodup fs _ c hsets]

/-- Witness of C19 (amended): three files given as "a b c", written to a buffer;
`run` writes the one line "HAPPYHRS", which is in the first and the third. -/
theorem C19_writes_valid_coupons_of_two_sets_witness :
    tools.coupons.run tools.coupons.threeFiles tools.coupons.live tools.coupons.buffer []
        "a b c" = (["HAPPYHRS\n"], none) ∧
    ∃ out : List String,
      tools.coupons.run tools.coupons.threeFiles tools.coupons.live tools.coupons.buffer []
          "a b c"
        = (tools.coupons.written tools.coupons.buffer [] (out.map (fun v => v ++ "\n")),
            none) ∧
      out.Nodup ∧
      ∀ c, c ∈ out ↔ tools.coupons.validCoupon c = true ∧
        2 ≤ tools.coupons.filesWith tools.coupons.threeFiles
          (tools.coupons.splitSpaces [] "a b c".data) c :=
  ⟨rfl, C19_writes_valid_coupons_of_two_sets tools.coupons.threeFiles tools.coupons.live
    tools.coupons.buffer [] "a b c" (fun _ => rfl) (by decide) (by decide)
    (fun _ _ => rfl)⟩

section helpers_list

theorem wrapInt64_of_range (x : Int) (h0 : 0 ≤ x) (h1 : x < 2 ^ 63) :
    products.wrapInt64 x = x := by
  unfold products.wrapInt64
  omega

/-- For arguments whose product and sum fit a 64-bit `int`, `Slice.List` returns
the page: at most `pageSize` products from position `pageSize * page` on. -/
theorem sliceList_in_range (s : products.Slice) (page pageSize : Int)
    (hp : 0 ≤ page) (hs : 1 ≤ pageSize) (hr : pageSize * page + pageSize < 2 ^ 63) :
    products.Slice.List s page pageSize
      = some ((s.drop (pageSize * page).toNat).take pageSize.toNat, none) := by
  have hn : 0 ≤ pageSize * page := Int.mul_nonneg (by omega) hp
  generalize hN : pageSize * page = n at hn hr
  have hw1 : products.wrapInt64 n = n := wrapInt64_of_range n hn (by omega)
  have hw2 : products.wrapInt64 (n + pageSize) = n + pageSize :=
    wrapInt64_of_range _ (by omega) hr
  have h1 : ¬ page < 0 := by omega
  have h2 : ¬ pageSize < 1 := by omega
  simp only [products.Slice.List, h1, h2, if_false, hN, hw1, hw2]
  have hcond : 0 ≤ min n (s.length : Int) ∧ min n (s.length : Int)
      ≤ min (n + pageSize) (s.length : Int) := by omega
  rw [if_pos hcond]
  congr 2
  by_cases hlt : n < (s.length : Int)
  · have e1 : (min n (s.length : Int)).toNat = n.toNat := by omega
    rw [e1, List.take_eq_take, List.length_drop]
    omega
  · have e1 : (min n (s.length : Int)).toNat = s.length := by omega
    have e2 : s.length ≤ n.toNat := by omega
    rw [e1, List.drop_eq_nil_of_le (Nat.le_refl _), List.drop_eq_nil_of_le e2]
    simp

end helpers_list

end Kart
